import Mathlib

/-!
Shallow embedding of the GoAccess log-parsing core (`src/parser.c`) and
verification of the frozen claims about it.

Strings are modelled as `List Char`; the C string terminator corresponds to
the end of the list.  Helper functions from other translation units of the
repository (util.c, error.h, the method/protocol tables) are not part of the
given sources; each such definition is marked `Modelled from the spec:` and
follows the specification text.  Everything else is translated directly from
`src/parser.c`.
-/

namespace GoAccess

abbrev Str := List Char

/-- C `isspace` on the ASCII characters that occur in log lines. -/
def isSpaceC (c : Char) : Bool :=
  c = ' ' || c = '\t' || c = '\n' || c = '\x0b' || c = '\x0c' || c = '\r'

/-- C `tolower` for ASCII. -/
def lowerC (c : Char) : Char :=
  if 'A' ≤ c && c ≤ 'Z' then Char.ofNat (c.toNat + 32) else c

/-- `strcasecmp(a,b) == 0`. -/
def ciEq (a b : Str) : Bool :=
  a.map lowerC == b.map lowerC

/-- `strncasecmp(s, pre, strlen pre) == 0`: `pre` is a case-insensitive
front segment of `s`. -/
def ciPrefixOf (pre s : Str) : Bool :=
  pre.length ≤ s.length && (s.take pre.length).map lowerC == pre.map lowerC

/-- Index of the first occurrence of `c` in `s` (C `strchr`). -/
def strchrIdx : Str → Char → Option Nat
  | [], _ => none
  | a :: t, c => if a = c then some 0 else (strchrIdx t c).map (· + 1)

/-- Index of the first occurrence of the substring `nee` in `hay`
(C `strstr`). -/
def strstrIdx : Str → Str → Option Nat
  | [], nee => if nee.isEmpty then some 0 else none
  | h :: t, nee =>
    if nee.isPrefixOf (h :: t) then some 0 else (strstrIdx t nee).map (· + 1)

/-- C `strcspn`: length of the longest front segment of `s` containing no
character of `rej`. -/
def strcspn (s rej : Str) : Nat :=
  (s.takeWhile (fun c => !(rej.contains c))).length

/-- Modelled from the spec: `trim_str` of util.c — trim surrounding
whitespace. -/
def trim_str (s : Str) : Str :=
  ((s.dropWhile isSpaceC).reverse.dropWhile isSpaceC).reverse

/-- Modelled from the spec: `strip_newlines` of util.c — strip CR/LF. -/
def strip_newlines (s : Str) : Str :=
  s.filter (fun c => !(c = '\r' || c = '\n'))

/-- Modelled from the spec: `char_replace` of util.c — replace every
occurrence of `a` with `b`. -/
def char_replace (s : Str) (a b : Char) : Str :=
  s.map (fun c => if c = a then b else c)

/-- Modelled from the spec: `count_matches` of util.c — number of
occurrences of `c` in `s`. -/
def count_matches (s : Str) (c : Char) : Nat :=
  s.countP (· = c)

def isDigitC (c : Char) : Bool := '0' ≤ c && c ≤ '9'

def isHexDigitC (c : Char) : Bool :=
  isDigitC c || ('a' ≤ c && c ≤ 'f') || ('A' ≤ c && c ≤ 'F')

def hexVal (c : Char) : Nat :=
  if isDigitC c then c.toNat - '0'.toNat
  else if 'a' ≤ c && c ≤ 'f' then c.toNat - 'a'.toNat + 10
  else if 'A' ≤ c && c ≤ 'F' then c.toNat - 'A'.toNat + 10
  else 0

/-- Modelled from the spec: `decode_hex` of util.c — percent-decode:
a `%` followed by two hex digits becomes the encoded byte, everything
else is copied verbatim. -/
def decode_hex : Str → Str
  | [] => []
  | '%' :: h1 :: h2 :: t =>
    if isHexDigitC h1 && isHexDigitC h2 then
      Char.ofNat (hexVal h1 * 16 + hexVal h2) :: decode_hex t
    else '%' :: decode_hex (h1 :: h2 :: t)
  | c :: t => c :: decode_hex t

/-- Value of a digit string. -/
def digitsVal (s : Str) : Nat :=
  s.foldl (fun a c => a * 10 + (c.toNat - '0'.toNat)) 0

/-- Modelled from the spec: `str2int` of util.c — decimal string to int,
`-1` when the string is not a plain decimal number. -/
def str2int (s : Str) : Int :=
  if s ≠ [] && s.all isDigitC then (digitsVal s : Int) else -1

/-- Modelled from the spec: DJB2 hash of the agent (32-bit). -/
def djb2 (s : Str) : Nat :=
  s.foldl (fun h c => (h * 33 + c.toNat) % 2 ^ 32) 5381

def hexDigitChar (n : Nat) : Char :=
  if n < 10 then Char.ofNat ('0'.toNat + n) else Char.ofNat ('a'.toNat + n - 10)

def hexOfNatAux : Nat → Nat → Str
  | 0, _ => []
  | _ + 1, 0 => []
  | fuel + 1, n => hexOfNatAux fuel (n / 16) ++ [hexDigitChar (n % 16)]

/-- Lowercase hexadecimal with no leading zeros (matches C `printf "%x"`). -/
def hexOfNat (n : Nat) : Str :=
  if n = 0 then ['0'] else hexOfNatAux 64 n

/-- `strtoull(tkn, &e, 10)` composed with the check pattern
`tkn == e || *e != 0 || errno == ERANGE` used throughout parser.c:
the value when the token is a plain in-range decimal, `0` otherwise. -/
def parse_u64 (s : Str) : Nat :=
  if s ≠ [] && s.all isDigitC && digitsVal s < 2 ^ 64 then digitsVal s else 0

/-- `strtol` model: returned value (longest decimal prefix, with optional
sign, clamped to the `long` range). -/
def strtolVal (s : Str) : Int :=
  let (sign, rest) :=
    match s with
    | '-' :: t => ((-1 : Int), t)
    | '+' :: t => ((1 : Int), t)
    | t => ((1 : Int), t)
  let ds := rest.takeWhile isDigitC
  let raw : Int := sign * (digitsVal ds : Int)
  max (-(2 ^ 63)) (min (2 ^ 63 - 1) raw)

/-- `strtol` model: whether the conversion consumed the whole token with at
least one digit and without overflow (the negation of the C error check
`tkn == sEnd || *sEnd != 0 || errno == ERANGE`). -/
def strtolOk (s : Str) : Bool :=
  let rest :=
    match s with
    | '-' :: t => t
    | '+' :: t => t
    | t => t
  let ds := rest.takeWhile isDigitC
  ds ≠ [] && rest.drop ds.length = [] &&
    decide ((digitsVal ds : Int) ≤ 2 ^ 63 - 1 ∨ (s.head? = some '-' ∧ (digitsVal ds : Int) ≤ 2 ^ 63))

/-- `strtod` model on the token shapes the parser feeds it
(`digits [ . digits ]`): exact rational value; `none` when the token is
not fully consumed.  Rounding to the nearest double is abstracted away:
the value is kept exact. -/
def strtodOk (s : Str) : Option ℚ :=
  let intPart := s.takeWhile isDigitC
  let rest := s.drop intPart.length
  match rest with
  | [] => if intPart ≠ [] then some (digitsVal intPart : ℚ) else none
  | '.' :: frac =>
    if (intPart ≠ [] || frac ≠ []) && frac.all isDigitC then
      some ((digitsVal intPart : ℚ) +
        (digitsVal frac : ℚ) / ((10 : ℚ) ^ frac.length))
    else none
  | _ => none

/-- `strtod` composed with the error check: value, or `0` on failure. -/
def strtodVal (s : Str) : ℚ :=
  (strtodOk s).getD 0

/-- Modelled from the spec: milliseconds per second scale used by parser.c
(`MILS`). -/
def MILS : Nat := 1000

/-- Modelled from the spec: microseconds per second scale used by parser.c
(`SECS`). -/
def SECS : Nat := 1000000

/-- Modelled from the spec: size of the normalized-mime output buffer
(`MAX_MIME_OUT`); the exact value is not given by the sources, a fixed
positive constant. -/
def MAX_MIME_OUT : Nat := 64

/-- Modelled from the spec: maximum stored referer-site length
(`REF_SITE_LEN`). -/
def REF_SITE_LEN : Nat := 512

/-- Modelled from the spec: the numeric values of the `ERR_SPEC_*` codes of
error.h are not in the sources; distinct nonzero values are chosen (none
equal to `1` or `-1`, which parser.c uses as plain returns). -/
def ERR_SPEC_TOKN_NUL : Int := 4

/-- Modelled from the spec: see `ERR_SPEC_TOKN_NUL`. -/
def ERR_SPEC_TOKN_INV : Int := 5

/-- Modelled from the spec: see `ERR_SPEC_TOKN_NUL`. -/
def ERR_SPEC_SFMT_MIS : Int := 6

/-- Modelled from the spec: see `ERR_SPEC_TOKN_NUL`. -/
def ERR_SPEC_LINE_INV : Int := 7

/-- Modelled from the spec: `IGNORE_LEVEL_PANEL` of commons.h. -/
def IGNORE_LEVEL_PANEL : Int := 1

/-- Modelled from the spec: `IGNORE_LEVEL_REQ` of commons.h. -/
def IGNORE_LEVEL_REQ : Int := 2

/-- Modelled from the spec: the table of known HTTP methods
(prefix-matched case-insensitively; canonical uppercase spelling). -/
def http_methods : List Str :=
  ["OPTIONS", "GET", "HEAD", "POST", "PUT", "DELETE", "TRACE",
   "CONNECT", "PATCH"].map String.toList

/-- Modelled from the spec: the table of known HTTP protocols. -/
def http_protocols : List Str :=
  ["HTTP/1.0", "HTTP/1.1", "HTTP/2", "HTTP/3"].map String.toList

/-- parser.c `extract_method`: first table entry that is a case-insensitive
front segment of the token. -/
def extract_method (tkn : Str) : Option Str :=
  http_methods.find? (fun m => ciPrefixOf m tkn)

/-- parser.c `extract_protocol`. -/
def extract_protocol (tkn : Str) : Option Str :=
  http_protocols.find? (fun m => ciPrefixOf m tkn)

/-- parser.c `is_cache_hit`. -/
def is_cache_hit (tkn : Str) : Bool :=
  ciEq "MISS".toList tkn || ciEq "BYPASS".toList tkn ||
  ciEq "EXPIRED".toList tkn || ciEq "STALE".toList tkn ||
  ciEq "UPDATING".toList tkn || ciEq "REVALIDATED".toList tkn ||
  ciEq "HIT".toList tkn

/-- Broken-down calendar time (the fields of `struct tm` the parser uses). -/
structure Tm where
  year : Int := 0
  mon : Int := 0
  mday : Int := 0
  hour : Int := 0
  min : Int := 0
  sec : Int := 0
deriving DecidableEq, Repr

/-- `TYPE_IPINV` (the `memset 0` initial value) / `TYPE_IPV4` / `TYPE_IPV6`. -/
inductive IpKind
  | inv
  | v4
  | v6
deriving DecidableEq, Repr

/-- The identity of the error message stored in `logitem->errstr`
(the message text itself is abstracted; only which error was raised is
kept, which is what the claims depend on). -/
inductive ErrStr
  | toknNul (spec : Char)
  | toknInv (spec : Char) (tkn : Str)
  | sfmtMis (spec : Char)
  | lineInv
  | missingHost
  | missingDate
  | missingReq
deriving DecidableEq, Repr

/-- `GLogItem` of parser.h, restricted to the fields parser.c itself reads
or writes.  The enrichment fields filled by the external classifiers
(`browser`, `os`, `continent`, `country`, `asn`) are omitted: parser.c only
stores the classifier outputs into them and no claim mentions them. -/
structure LogItem where
  agent : Option Str := none
  date : Option Str := none
  time : Option Str := none
  host : Option Str := none
  keyphrase : Option Str := none
  method : Option Str := none
  protocol : Option Str := none
  qstr : Option Str := none
  ref : Option Str := none
  req : Option Str := none
  userid : Option Str := none
  vhost : Option Str := none
  cache_status : Option Str := none
  tls_type : Option Str := none
  tls_cypher : Option Str := none
  tls_type_cypher : Option Str := none
  mime_type : Option Str := none
  uniq_key : Option Str := none
  errstr : Option ErrStr := none
  site : Str := []
  resp_size : Nat := 0
  serve_time : Nat := 0
  numdate : Int := 0
  status : Int := -1
  type_ip : IpKind := .inv
  agent_hash : Nat := 0
  agent_hex : Str := []
  is_404 : Bool := false
  is_static : Bool := false
  ignorelevel : Int := 0
  dt : Tm := {}
deriving DecidableEq, Repr

/-- `GLastParse`: the persisted resume fingerprint. -/
structure GLastParse where
  ts : Int := 0
  line : Nat := 0
  size : Nat := 0
  snippet : Str := []
  snippetlen : Nat := 0
deriving DecidableEq, Repr

/-- `GLog`: per-input-source state (fields parser.c reads or writes while
parsing lines). -/
structure GLog where
  inode : Nat := 0
  size : Nat := 0
  read : Nat := 0
  snippet : Str := []
  snippetlen : Nat := 0
  lp : GLastParse := {}
  processed : Nat := 0
  invalid : Nat := 0
  piping : Bool := false
  fnameAsVhost : Option Str := none
  start_time : Tm := {}
deriving DecidableEq, Repr

/-- The configuration fields of the global `conf` struct that the parsing
core reads. -/
structure Conf where
  log_format : Str := []
  date_format : Str := []
  time_format : Str := []
  date_num_format : Str := []
  double_decode : Bool := false
  append_method : Bool := false
  append_protocol : Bool := false
  no_ip_validation : Bool := false
  no_strict_status : Bool := false
  ignore_crawlers : Bool := false
  crawlers_only : Bool := false
  ignore_statics : Int := 0
  ignore_qstr : Bool := false
  ignore_status : List Int := []
  static_files : List Str := []
  all_static_files : Bool := false
  code444_as_404 : Bool := false
  restore : Bool := false
  is_json_log_format : Bool := false
  fname_as_vhost : Bool := false
  num_tests : Nat := 0
deriving DecidableEq, Repr

/-- The external collaborators of the parsing core (other translation
units of the repository; see spec section 6).  Each field models one
opaque function the core calls. -/
structure Env where
  /-- `str_to_time(tkn, fmt, &tm, 1)`: parse `tkn` by `fmt` over the base
  broken-down time; `none` models a nonzero return. -/
  strToTime : Str → Str → Tm → Option Tm := fun _ _ _ => none
  /-- `strftime` over `conf.date_num_format` (the body of `set_date`). -/
  fmtDate : Tm → Option Str := fun _ => none
  /-- `strftime` over `"%H:%M:%S"` (the body of `set_time`). -/
  fmtTime : Tm → Option Str := fun _ => none
  /-- `invalid_ipaddr(s, &type)`: the kind written to `type`; a nonzero
  (invalid) return corresponds to `.inv`. -/
  ipKind : Str → IpKind := fun _ => .inv
  /-- `is_valid_http_status`. -/
  validStatus : Int → Bool := fun _ => false
  /-- `is_crawler`. -/
  isCrawler : Str → Bool := fun _ => false
  /-- `hide_referer`. -/
  hideReferer : Str → Bool := fun _ => false
  /-- `ignore_referer` (takes the possibly-null `logitem->ref`). -/
  ignoreReferer : Option Str → Bool := fun _ => false
  /-- `excluded_ip(logitem) == 0`, i.e. `true` iff the IP is excluded. -/
  excludedIp : Option Str → Bool := fun _ => false
  /-- `mktime`. -/
  mkTime : Tm → Int := fun _ => -1
  /-- `ht_get_last_parse(inode)`. -/
  lastParse : Nat → GLastParse := fun _ => {}
  /-- `parse_json_string` walking a JSON object and feeding values through
  the directive engine (external JSON walker; only reachable when
  `conf.is_json_log_format`). -/
  parseJson : LogItem → Str → Option (Int × LogItem) := fun li _ => some (1, li)

/-- C `toupper` for ASCII (util.c `strtoupper` applies it charwise). -/
def upperC (c : Char) : Char :=
  if 'a' ≤ c && c ≤ 'z' then Char.ofNat (c.toNat - 32) else c

/-- Index of the last occurrence of `c` in `s` (C `strrchr`). -/
def lastIdxOf (s : Str) (c : Char) : Option Nat :=
  (s.reverse.findIdx? (· = c)).map (fun j => s.length - 1 - j)

/-- parser.c `decode_url`: percent-decode (twice when `double_decode`),
strip CR/LF, trim; `NULL` for a null/empty input. -/
def decode_url (cf : Conf) (url : Str) : Option Str :=
  if url = [] then none
  else
    let out := decode_hex url
    let out := if cf.double_decode then decode_hex out else out
    some (trim_str (strip_newlines out))

/-- The six Google referer host patterns of `extract_keyphrase`. -/
def googleRef (ref : Str) : Bool :=
  (strstrIdx ref "http://www.google.".toList).isSome ||
  (strstrIdx ref "http://webcache.googleusercontent.com/".toList).isSome ||
  (strstrIdx ref "http://translate.googleusercontent.com/".toList).isSome ||
  (strstrIdx ref "https://www.google.".toList).isSome ||
  (strstrIdx ref "https://webcache.googleusercontent.com/".toList).isSome ||
  (strstrIdx ref "https://translate.googleusercontent.com/".toList).isSome

/-- parser.c `extract_keyphrase`.  The C function truncates the referer
buffer in place at the query separator (`*ptr = '\0'`); the possibly
truncated referer is returned as the second component.  The first
component is the extracted keyphrase (`none` models a `1` return, which
leaves `*keyphrase` unassigned). -/
def extract_keyphrase (cf : Conf) (ref : Str) : Option Str × Str :=
  if !googleRef ref then (none, ref)
  else if (strstrIdx ref "/+&".toList).isSome then (none, ref)
  else
    let sel : Option (Nat × Bool) :=
      match strstrIdx ref "/+".toList with
      | some i => some (i + 2, false)
      | none =>
        match strstrIdx ref "q=cache:".toList with
        | some i =>
          match strchrIdx (ref.drop i) '+' with
          | some j => some (i + j + 1, false)
          | none => some (i, false)
        | none =>
          match strstrIdx ref "&q=".toList with
          | some i => some (i + 3, false)
          | none =>
            match strstrIdx ref "?q=".toList with
            | some i => some (i + 3, false)
            | none =>
              match strstrIdx ref "%26q%3D".toList with
              | some i => some (i + 7, true)
              | none =>
                match strstrIdx ref "%3Fq%3D".toList with
                | some i => some (i + 7, true)
                | none => none
    match sel with
    | none => (none, ref)
    | some (off, enc) =>
      let r := ref.drop off
      let cut : Option Nat :=
        if !enc then strchrIdx r '&' else strstrIdx r "%26".toList
      let r2 := match cut with | some j => r.take j | none => r
      let ref2 := match cut with | some j => ref.take (off + j) | none => ref
      match decode_url cf r2 with
      | none => (none, ref2)
      | some referer =>
        if referer = [] then (none, ref2)
        else (some (trim_str (char_replace referer '+' ' ')), ref2)

/-- parser.c `extract_referer_site`: host part of a URI, truncated to
`REF_SITE_LEN`.  On failure the destination buffer (previous `site`) is
left unchanged. -/
def extract_referer_site (referer : Str) (site : Str) : Str :=
  if referer = [] then site
  else
    match strstrIdx referer "//".toList with
    | none => site
    | some i =>
      let begin2 := referer.drop (i + 2)
      if begin2.length = 0 then site
      else
        let len :=
          match begin2.findIdx? (fun c => c = '/' || c = '?') with
          | some j => j
          | none => begin2.length
        if len = 0 then site
        else begin2.take (if len ≥ REF_SITE_LEN then REF_SITE_LEN else len)

/-- One extension check of `verify_static_content`.  When
`all_static_files` is set and a `?` occurs past the extension length, the
extension is compared immediately before the `?` (and the end-of-string
check is skipped for this extension); otherwise it is compared at the end
of the request. -/
def static_ext_match (cf : Conf) (req : Str) (ext : Str) : Bool :=
  if ext = [] then false
  else
    let elen := ext.length
    let qcase : Option Nat :=
      if cf.all_static_files then
        match strchrIdx req '?' with
        | some qi => if elen < qi then some qi else none
        | none => none
      else none
    match qcase with
    | some qi => ciEq ((req.take qi).drop (qi - elen)) ext
    | none => decide (req.length > elen) && ciEq (req.drop (req.length - elen)) ext

/-- parser.c `verify_static_content`. -/
def verify_static_content (cf : Conf) (req : Str) : Bool :=
  req ≠ [] && cf.static_files.any (static_ext_match cf req)

/-- Shared tail of `parse_req`: `decode_url` the extracted request, keeping
the raw request when decoding yields null or empty. -/
def decode_req (cf : Conf) (request : Str) : Str :=
  match decode_url cf request with
  | none => request
  | some d => if d = [] then request else d

/-- parser.c `parse_req`: split a request line into request, method and
protocol.  Returns the new `(req, method, protocol)` triple (`method` and
`protocol` are only assigned under `append_method` / `append_protocol`). -/
def parse_req (cf : Conf) (line : Str) (method0 protocol0 : Option Str) :
    Str × Option Str × Option Str :=
  match extract_method line with
  | none => (decode_req cf line, method0, protocol0)
  | some meth =>
    let req0 := line.drop meth.length
    match lastIdxOf req0 ' ' with
    | none => ("-".toList, method0, protocol0)
    | some si =>
      match extract_protocol (req0.drop (si + 1)) with
      | none => ("-".toList, method0, protocol0)
      | some proto =>
        if si = 0 then ("-".toList, method0, protocol0)
        else
          let request := (req0.drop 1).take si
          let method1 := if cf.append_method then some (meth.map upperC) else method0
          let protocol1 := if cf.append_protocol then some (proto.map upperC) else protocol0
          (decode_req cf request, method1, protocol1)

/-- One bounded `snprintf` append of `normalize_mime_type`: append `piece`
into the remaining budget; on overflow keep the truncated front and stop. -/
def mime_append (st : Str × Nat × Bool) (piece : Str) : Str × Nat × Bool :=
  let (acc, remaining, stopped) := st
  if stopped then (acc, remaining, stopped)
  else if piece.length ≥ remaining then (acc ++ piece.take (remaining - 1), 0, true)
  else (acc ++ piece, remaining - piece.length, false)

/-- parser.c `normalize_mime_type`: split on `;` and `,`, trim, lowercase,
rejoin with a semicolon-space separator into a `MAX_MIME_OUT` buffer. -/
def normalize_mime_type (mime : Str) : Str :=
  let segs := (mime.splitOnP (fun c => c = ';' || c = ',')).map trim_str
  let toks := (segs.filter (· ≠ [])).map (·.map lowerC)
  match toks with
  | [] => []
  | t0 :: rest =>
    let st0 := mime_append ([], MAX_MIME_OUT, false) t0
    (rest.foldl (fun st t => mime_append (mime_append st "; ".toList) t) st0).1

/-- parser.c `get_delim`: the delimiter for a directive is the format byte
following it; `none` models the empty delimiter string (token extends to
the end of the line). -/
def get_delim : Str → Option Char
  | [] => none
  | [_] => none
  | _ :: d :: _ => some d

/-- parser.c `find_alpha`: skip leading whitespace. -/
def find_alpha (s : Str) : Str :=
  s.dropWhile isSpaceC

/-- parser.c `find_alpha_count`: number of leading whitespace chars. -/
def find_alpha_count (s : Str) : Nat :=
  (s.takeWhile isSpaceC).length

/-- parser.c `handle_default_case_token`: advance the input to the first
occurrence of the format byte that follows the directive (`p[1]`); when
that byte is the format terminator, `strchr` finds the input terminator,
advancing the input to its end; when the byte does not occur, the input is
left where it was. -/
def handle_default_case_token (s : Str) (p : Str) : Str :=
  match p with
  | [] => []
  | [_] => []
  | _ :: d :: _ =>
    match strchrIdx s d with
    | some i => s.drop i
    | none => s

/-- The scanning loop of parser.c `parse_string`.  `endc = none` models the
`'\0'` delimiter.  `pre` holds the scanned characters in reverse.  On the
`cnt`-th delimiter (or at end of input) the token up to the current
position is trimmed and returned together with the rest of the input
starting at the delimiter; a backslash escapes the following byte, and a
trailing backslash makes the loop run off the end (`NULL` return). -/
def parse_string_go (endc : Option Char) (cnt : Nat) :
    Nat → Str → Str → Option (Str × Str)
  | _, pre, [] => some (trim_str pre.reverse, [])
  | idx, pre, c :: t =>
    let idx1 := if some c = endc then idx + 1 else idx
    if some c = endc && cnt = idx1 then some (trim_str pre.reverse, c :: t)
    else
      if c = '\\' then
        match t with
        | [] => none
        | c2 :: t2 => parse_string_go endc cnt idx1 (c2 :: c :: pre) t2
      else parse_string_go endc cnt idx1 (c :: pre) t

/-- parser.c `parse_string`: extract a token ending at the `cnt`-th
occurrence of the delimiter.  Returns the trimmed token and the remaining
input (still starting at the delimiter); `none` when a nonempty delimiter
set has no occurrence in the input. -/
def parse_string (s : Str) (delims : Option Char) (cnt : Nat) :
    Option (Str × Str) :=
  match delims with
  | some d => if s.contains d then parse_string_go (some d) cnt 0 [] s else none
  | none => parse_string_go none cnt 0 [] s

/-- `spec_err` with `ERR_SPEC_TOKN_NUL`. -/
def errNul (li : LogItem) (c : Char) : LogItem :=
  { li with errstr := some (.toknNul c) }

/-- `spec_err` with `ERR_SPEC_TOKN_INV`. -/
def errInv (li : LogItem) (c : Char) (tkn : Str) : LogItem :=
  { li with errstr := some (.toknInv c tkn) }

/-- parser.c `set_agent_hash` (the DJB2 hash and its hex form). -/
def set_agent_hash (li : LogItem) : LogItem :=
  { li with agent_hash := djb2 (li.agent.getD []),
            agent_hex := hexOfNat (djb2 (li.agent.getD [])) }

/-- The delimiter count of the `%d` case: syslog dates may contain
(padded) spaces, so the token runs to the
`max(spaces-in-date-format, spaces-in-input-prefix) + 1`-th delimiter. -/
def d_token_cnt (cf : Conf) (str : Str) : Nat :=
  let fmtspcs := count_matches cf.date_format ' '
  let dspc :=
    if fmtspcs ≠ 0 then
      match strchrIdx str ' ' with
      | some i => find_alpha_count (str.drop i)
      | none => 0
    else 0
  max dspc fmtspcs + 1

/-- The `%d` case of `parse_specifier`. -/
def spec_d (cf : Conf) (ev : Env) (li : LogItem) (str : Str) (p : Str)
    (endd : Option Char) : Option (Int × LogItem × Str) :=
  if li.date.isSome then some (0, li, handle_default_case_token str p)
  else
    match parse_string str endd (d_token_cnt cf str) with
    | none => some (ERR_SPEC_TOKN_NUL, errNul li 'd', str)
    | some (tkn, str1) =>
      match ev.strToTime tkn cf.date_format li.dt with
      | none => some (1, errInv li 'd' tkn, str1)
      | some tm =>
        match ev.fmtDate tm with
        | none => some (1, errInv li 'd' tkn, str1)
        | some ds =>
          let nd := str2int ds
          if nd = -1 then none
          else
            let li1 :=
              { li with
                date := some ds
                numdate := nd
                dt := { li.dt with year := tm.year, mon := tm.mon, mday := tm.mday } }
            some (0, li1, str1)

/-- The `%t` case of `parse_specifier`. -/
def spec_t (cf : Conf) (ev : Env) (li : LogItem) (str : Str) (p : Str)
    (endd : Option Char) : Option (Int × LogItem × Str) :=
  if li.time.isSome then some (0, li, handle_default_case_token str p)
  else
    match parse_string str endd 1 with
    | none => some (ERR_SPEC_TOKN_NUL, errNul li 't', str)
    | some (tkn, str1) =>
      match ev.strToTime tkn cf.time_format li.dt with
      | none => some (1, errInv li 't' tkn, str1)
      | some tm =>
        match ev.fmtTime tm with
        | none => some (1, errInv li 't' tkn, str1)
        | some ts =>
          let li1 :=
            { li with
              time := some ts
              dt := { li.dt with hour := tm.hour, min := tm.min, sec := tm.sec } }
          some (0, li1, str1)

/-- The `%x` (datetime as one token) case of `parse_specifier`. -/
def spec_x (cf : Conf) (ev : Env) (li : LogItem) (str : Str) (p : Str)
    (endd : Option Char) : Option (Int × LogItem × Str) :=
  if li.time.isSome && li.date.isSome then
    some (0, li, handle_default_case_token str p)
  else
    match parse_string str endd 1 with
    | none => some (ERR_SPEC_TOKN_NUL, errNul li 'x', str)
    | some (tkn, str1) =>
      match ev.strToTime tkn cf.time_format li.dt with
      | none => some (1, errInv li 'x' tkn, str1)
      | some tm =>
        match ev.fmtDate tm with
        | none => some (1, errInv li 'x' tkn, str1)
        | some ds =>
          let li1 := { li with date := some ds }
          match ev.fmtTime tm with
          | none => some (1, errInv li1 'x' tkn, str1)
          | some ts =>
            let nd := str2int ds
            if nd = -1 then none
            else
              let li2 :=
                { li1 with
                  time := some ts
                  numdate := nd
                  dt := { li1.dt with year := tm.year, mon := tm.mon, mday := tm.mday,
                                      hour := tm.hour, min := tm.min, sec := tm.sec } }
              some (0, li2, str1)

/-- The `%v` case of `parse_specifier`. -/
def spec_v (li : LogItem) (str : Str) (p : Str) (endd : Option Char) :
    Option (Int × LogItem × Str) :=
  if li.vhost.isSome then some (0, li, handle_default_case_token str p)
  else
    match parse_string str endd 1 with
    | none => some (ERR_SPEC_TOKN_NUL, errNul li 'v', str)
    | some (tkn, str1) => some (0, { li with vhost := some tkn }, str1)

/-- The `%e` (remote user) case of `parse_specifier`. -/
def spec_e (li : LogItem) (str : Str) (p : Str) (endd : Option Char) :
    Option (Int × LogItem × Str) :=
  if li.userid.isSome then some (0, li, handle_default_case_token str p)
  else
    match parse_string str endd 1 with
    | none => some (ERR_SPEC_TOKN_NUL, errNul li 'e', str)
    | some (tkn, str1) => some (0, { li with userid := some tkn }, str1)

/-- The `%C` (cache status) case of `parse_specifier`. -/
def spec_C (li : LogItem) (str : Str) (p : Str) (endd : Option Char) :
    Option (Int × LogItem × Str) :=
  if li.cache_status.isSome then some (0, li, handle_default_case_token str p)
  else
    match parse_string str endd 1 with
    | none => some (ERR_SPEC_TOKN_NUL, errNul li 'C', str)
    | some (tkn, str1) =>
      if is_cache_hit tkn then some (0, { li with cache_status := some tkn }, str1)
      else some (0, li, str1)

/-- The body of the `%h` case after the bracket handling: extract the
token, validate the IP (unless `no_ip_validation`, in which case only a
nonempty token is required). -/
def spec_h_core (cf : Conf) (ev : Env) (li : LogItem) (strB : Str)
    (endB : Option Char) : Option (Int × LogItem × Str) :=
  match parse_string strB endB 1 with
  | none => some (ERR_SPEC_TOKN_NUL, errNul li 'h', strB)
  | some (tkn, str1) =>
    if !cf.no_ip_validation then
      let li1 := { li with type_ip := ev.ipKind tkn }
      if ev.ipKind tkn = .inv then some (1, errInv li1 'h' tkn, str1)
      else some (0, { li1 with host := some tkn }, str1)
    else
      if tkn = [] then some (1, errInv li 'h' tkn, str1)
      else some (0, { li with host := some tkn }, str1)

/-- The `%h` case of `parse_specifier`: when the input token starts with
`[`, the bracket is consumed and (when input remains) `]` becomes the
delimiter. -/
def spec_h (cf : Conf) (ev : Env) (li : LogItem) (str : Str) (p : Str)
    (endd : Option Char) : Option (Int × LogItem × Str) :=
  if li.host.isSome then some (0, li, handle_default_case_token str p)
  else if str.head? = some '[' then
    let strB := str.drop 1
    spec_h_core cf ev li strB (if strB ≠ [] then some ']' else endd)
  else spec_h_core cf ev li str endd

/-- The `%m` case of `parse_specifier`. -/
def spec_m (li : LogItem) (str : Str) (p : Str) (endd : Option Char) :
    Option (Int × LogItem × Str) :=
  if li.method.isSome then some (0, li, handle_default_case_token str p)
  else
    match parse_string str endd 1 with
    | none => some (ERR_SPEC_TOKN_NUL, errNul li 'm', str)
    | some (tkn, str1) =>
      match extract_method tkn with
      | none => some (1, errInv li 'm' tkn, str1)
      | some meth => some (0, { li with method := some meth }, str1)

/-- The `%U` case of `parse_specifier`. -/
def spec_U (cf : Conf) (li : LogItem) (str : Str) (p : Str)
    (endd : Option Char) : Option (Int × LogItem × Str) :=
  if li.req.isSome then some (0, li, handle_default_case_token str p)
  else
    match parse_string str endd 1 with
    | none => some (ERR_SPEC_TOKN_NUL, errNul li 'U', str)
    | some ([], str1) => some (ERR_SPEC_TOKN_NUL, errNul li 'U', str1)
    | some (tkn, str1) =>
      match decode_url cf tkn with
      | none => some (1, errInv li 'U' tkn, str1)
      | some d => some (0, { li with req := some d }, str1)

/-- The `%q` case of `parse_specifier`: a missing or empty token is
success, leaving `qstr` unset. -/
def spec_q (cf : Conf) (li : LogItem) (str : Str) (p : Str)
    (endd : Option Char) : Option (Int × LogItem × Str) :=
  if li.qstr.isSome then some (0, li, handle_default_case_token str p)
  else
    match parse_string str endd 1 with
    | none => some (0, li, str)
    | some ([], str1) => some (0, li, str1)
    | some (tkn, str1) =>
      match decode_url cf tkn with
      | none => some (1, errInv li 'q' tkn, str1)
      | some d => some (0, { li with qstr := some d }, str1)

/-- The `%H` (protocol) case of `parse_specifier`. -/
def spec_H (li : LogItem) (str : Str) (p : Str) (endd : Option Char) :
    Option (Int × LogItem × Str) :=
  if li.protocol.isSome then some (0, li, handle_default_case_token str p)
  else
    match parse_string str endd 1 with
    | none => some (ERR_SPEC_TOKN_NUL, errNul li 'H', str)
    | some (tkn, str1) =>
      match extract_protocol tkn with
      | none => some (1, errInv li 'H' tkn, str1)
      | some proto => some (0, { li with protocol := some proto }, str1)

/-- The `%r` (request line) case of `parse_specifier`. -/
def spec_r (cf : Conf) (li : LogItem) (str : Str) (p : Str)
    (endd : Option Char) : Option (Int × LogItem × Str) :=
  if li.req.isSome then some (0, li, handle_default_case_token str p)
  else
    match parse_string str endd 1 with
    | none => some (ERR_SPEC_TOKN_NUL, errNul li 'r', str)
    | some (tkn, str1) =>
      let rmp := parse_req cf tkn li.method li.protocol
      let li1 :=
        { li with
          req := some rmp.1
          method := rmp.2.1
          protocol := rmp.2.2 }
      some (0, li1, str1)

/-- The `%s` (status) case of `parse_specifier`.  Note that the C code
stores the `strtol` result into the item before the validity check, so a
rejected token still leaves the parsed value behind on the (now invalid)
item. -/
def spec_s (cf : Conf) (ev : Env) (li : LogItem) (str : Str) (p : Str)
    (endd : Option Char) : Option (Int × LogItem × Str) :=
  if li.status ≥ 0 then some (0, li, handle_default_case_token str p)
  else
    match parse_string str endd 1 with
    | none => some (ERR_SPEC_TOKN_NUL, errNul li 's', str)
    | some (tkn, str1) =>
      let li1 := { li with status := strtolVal tkn }
      if !strtolOk tkn || (!cf.no_strict_status && !ev.validStatus li1.status) then
        some (1, errInv li1 's' tkn, str1)
      else some (0, li1, str1)

/-- The `%b` (response size) case of `parse_specifier`.  The global
"bandwidth-seen" CAS flag is process-wide state outside the data model and
is not represented. -/
def spec_b (li : LogItem) (str : Str) (p : Str) (endd : Option Char) :
    Option (Int × LogItem × Str) :=
  if li.resp_size ≠ 0 then some (0, li, handle_default_case_token str p)
  else
    match parse_string str endd 1 with
    | none => some (ERR_SPEC_TOKN_NUL, errNul li 'b', str)
    | some (tkn, str1) => some (0, { li with resp_size := parse_u64 tkn }, str1)

/-- The tail of the `%R` case once the token (with the `"-"` substitution
for null/empty already applied) and the advanced input are known. -/
def spec_R_core (cf : Conf) (ev : Env) (li : LogItem) (tkn : Str)
    (str1 : Str) : Option (Int × LogItem × Str) :=
  if tkn ≠ "-".toList then
    let kpr := extract_keyphrase cf tkn
    let li1 := { li with keyphrase :=
      match kpr.1 with | some k => some k | none => li.keyphrase }
    let site1 := extract_referer_site kpr.2 li1.site
    if ev.hideReferer site1 then some (0, { li1 with site := [] }, str1)
    else some (0, { li1 with site := site1, ref := some kpr.2 }, str1)
  else some (0, { li with ref := some tkn }, str1)

/-- The `%R` (referer) case of `parse_specifier`: a missing or empty token
becomes the literal `"-"`. -/
def spec_R (cf : Conf) (ev : Env) (li : LogItem) (str : Str) (p : Str)
    (endd : Option Char) : Option (Int × LogItem × Str) :=
  if li.ref.isSome then some (0, li, handle_default_case_token str p)
  else
    match parse_string str endd 1 with
    | none => spec_R_core cf ev li "-".toList str
    | some (t, s1) => spec_R_core cf ev li (if t = [] then "-".toList else t) s1

/-- The `%u` (user agent) case of `parse_specifier`.  The external
`set_browser_os` enrichment writes only the omitted classifier fields. -/
def spec_u (cf : Conf) (li : LogItem) (str : Str) (p : Str)
    (endd : Option Char) : Option (Int × LogItem × Str) :=
  if li.agent.isSome then some (0, li, handle_default_case_token str p)
  else
    match parse_string str endd 1 with
    | some (tkn, str1) =>
      if tkn ≠ [] then
        some (0, set_agent_hash { li with agent := decode_url cf tkn }, str1)
      else
        some (0, set_agent_hash { li with agent := some "-".toList }, str1)
    | none =>
      some (0, set_agent_hash { li with agent := some "-".toList }, str)

/-- The `%L` (milliseconds) case of `parse_specifier`.  The C code routes
the `strtoull` value through a `double` before scaling; the arithmetic is
kept exact here. -/
def spec_L (li : LogItem) (str : Str) (p : Str) (endd : Option Char) :
    Option (Int × LogItem × Str) :=
  if li.serve_time ≠ 0 then some (0, li, handle_default_case_token str p)
  else
    match parse_string str endd 1 with
    | none => some (ERR_SPEC_TOKN_NUL, errNul li 'L', str)
    | some (tkn, str1) =>
      let v := parse_u64 tkn
      some (0, { li with serve_time := if v > 0 then v * MILS else 0 }, str1)

/-- The `%T` (seconds, possibly fractional) case of `parse_specifier`.
The `double` arithmetic of the C code is modelled exactly over `ℚ`; the
conversion to `uint64_t` truncates, i.e. is the floor for positive
values. -/
def spec_T (li : LogItem) (str : Str) (p : Str) (endd : Option Char) :
    Option (Int × LogItem × Str) :=
  if li.serve_time ≠ 0 then some (0, li, handle_default_case_token str p)
  else
    match parse_string str endd 1 with
    | none => some (ERR_SPEC_TOKN_NUL, errNul li 'T', str)
    | some (tkn, str1) =>
      let secs : ℚ := if tkn.contains '.' then strtodVal tkn else (parse_u64 tkn : ℚ)
      some (0, { li with serve_time :=
        if secs > 0 then (Int.floor (secs * (SECS : ℚ))).toNat else 0 }, str1)

/-- The `%D` (microseconds) case of `parse_specifier`. -/
def spec_D (li : LogItem) (str : Str) (p : Str) (endd : Option Char) :
    Option (Int × LogItem × Str) :=
  if li.serve_time ≠ 0 then some (0, li, handle_default_case_token str p)
  else
    match parse_string str endd 1 with
    | none => some (ERR_SPEC_TOKN_NUL, errNul li 'D', str)
    | some (tkn, str1) => some (0, { li with serve_time := parse_u64 tkn }, str1)

/-- The `%n` (nanoseconds) case of `parse_specifier`. -/
def spec_n (li : LogItem) (str : Str) (p : Str) (endd : Option Char) :
    Option (Int × LogItem × Str) :=
  if li.serve_time ≠ 0 then some (0, li, handle_default_case_token str p)
  else
    match parse_string str endd 1 with
    | none => some (ERR_SPEC_TOKN_NUL, errNul li 'n', str)
    | some (tkn, str1) =>
      let v := parse_u64 tkn
      some (0, { li with serve_time := if v > 0 then v / MILS else 0 }, str1)

/-- The `%k` (TLS cipher) case of `parse_specifier` (the build without
libssl: the token is stored as-is). -/
def spec_k (li : LogItem) (str : Str) (p : Str) (endd : Option Char) :
    Option (Int × LogItem × Str) :=
  if li.tls_cypher.isSome then some (0, li, handle_default_case_token str p)
  else
    match parse_string str endd 1 with
    | none => some (ERR_SPEC_TOKN_NUL, errNul li 'k', str)
    | some (tkn, str1) => some (0, { li with tls_cypher := some tkn }, str1)

/-- The `%K` (TLS type) case of `parse_specifier`. -/
def spec_K (li : LogItem) (str : Str) (p : Str) (endd : Option Char) :
    Option (Int × LogItem × Str) :=
  if li.tls_type.isSome then some (0, li, handle_default_case_token str p)
  else
    match parse_string str endd 1 with
    | none => some (ERR_SPEC_TOKN_NUL, errNul li 'K', str)
    | some (tkn, str1) => some (0, { li with tls_type := some tkn }, str1)

/-- The `%M` (mime type) case of `parse_specifier`. -/
def spec_M (li : LogItem) (str : Str) (p : Str) (endd : Option Char) :
    Option (Int × LogItem × Str) :=
  if li.mime_type.isSome then some (0, li, handle_default_case_token str p)
  else
    match parse_string str endd 1 with
    | none => some (ERR_SPEC_TOKN_NUL, errNul li 'M', str)
    | some (tkn, str1) =>
      let nm := normalize_mime_type tkn
      some (0, { li with mime_type := if nm ≠ [] then some nm else none }, str1)

/-- parser.c `parse_specifier`: dispatch on the directive character.
`p` is the format suffix starting at the directive character; `endd` is
the delimiter computed by `get_delim`.  `none` models the `FATAL` abort of
`set_numeric_date`. -/
def parse_specifier (cf : Conf) (ev : Env) (li : LogItem) (str : Str)
    (p : Str) (endd : Option Char) : Option (Int × LogItem × Str) :=
  match p.head? with
  | none => some (0, li, handle_default_case_token str p)
  | some c =>
    if c = 'd' then spec_d cf ev li str p endd
    else if c = 't' then spec_t cf ev li str p endd
    else if c = 'x' then spec_x cf ev li str p endd
    else if c = 'v' then spec_v li str p endd
    else if c = 'e' then spec_e li str p endd
    else if c = 'C' then spec_C li str p endd
    else if c = 'h' then spec_h cf ev li str p endd
    else if c = 'm' then spec_m li str p endd
    else if c = 'U' then spec_U cf li str p endd
    else if c = 'q' then spec_q cf li str p endd
    else if c = 'H' then spec_H li str p endd
    else if c = 'r' then spec_r cf li str p endd
    else if c = 's' then spec_s cf ev li str p endd
    else if c = 'b' then spec_b li str p endd
    else if c = 'R' then spec_R cf ev li str p endd
    else if c = 'u' then spec_u cf li str p endd
    else if c = 'L' then spec_L li str p endd
    else if c = 'T' then spec_T li str p endd
    else if c = 'D' then spec_D li str p endd
    else if c = 'n' then spec_n li str p endd
    else if c = 'k' then spec_k li str p endd
    else if c = 'K' then spec_K li str p endd
    else if c = 'M' then spec_M li str p endd
    else if c = '~' then some (0, li, find_alpha str)
    else some (0, li, handle_default_case_token str p)

/-! Dispatch equations of `parse_specifier`, one per directive char. -/

theorem parse_specifier_d (cf : Conf) (ev : Env) (li : LogItem) (str : Str)
    (pr : Str) (endd : Option Char) :
    parse_specifier cf ev li str ('d' :: pr) endd = spec_d cf ev li str ('d' :: pr) endd := rfl

theorem parse_specifier_t (cf : Conf) (ev : Env) (li : LogItem) (str : Str)
    (pr : Str) (endd : Option Char) :
    parse_specifier cf ev li str ('t' :: pr) endd = spec_t cf ev li str ('t' :: pr) endd := rfl

theorem parse_specifier_x (cf : Conf) (ev : Env) (li : LogItem) (str : Str)
    (pr : Str) (endd : Option Char) :
    parse_specifier cf ev li str ('x' :: pr) endd = spec_x cf ev li str ('x' :: pr) endd := rfl

theorem parse_specifier_v (cf : Conf) (ev : Env) (li : LogItem) (str : Str)
    (pr : Str) (endd : Option Char) :
    parse_specifier cf ev li str ('v' :: pr) endd = spec_v li str ('v' :: pr) endd := rfl

theorem parse_specifier_e (cf : Conf) (ev : Env) (li : LogItem) (str : Str)
    (pr : Str) (endd : Option Char) :
    parse_specifier cf ev li str ('e' :: pr) endd = spec_e li str ('e' :: pr) endd := rfl

theorem parse_specifier_C (cf : Conf) (ev : Env) (li : LogItem) (str : Str)
    (pr : Str) (endd : Option Char) :
    parse_specifier cf ev li str ('C' :: pr) endd = spec_C li str ('C' :: pr) endd := rfl

theorem parse_specifier_h (cf : Conf) (ev : Env) (li : LogItem) (str : Str)
    (pr : Str) (endd : Option Char) :
    parse_specifier cf ev li str ('h' :: pr) endd = spec_h cf ev li str ('h' :: pr) endd := rfl

theorem parse_specifier_m (cf : Conf) (ev : Env) (li : LogItem) (str : Str)
    (pr : Str) (endd : Option Char) :
    parse_specifier cf ev li str ('m' :: pr) endd = spec_m li str ('m' :: pr) endd := rfl

theorem parse_specifier_U (cf : Conf) (ev : Env) (li : LogItem) (str : Str)
    (pr : Str) (endd : Option Char) :
    parse_specifier cf ev li str ('U' :: pr) endd = spec_U cf li str ('U' :: pr) endd := rfl

theorem parse_specifier_q (cf : Conf) (ev : Env) (li : LogItem) (str : Str)
    (pr : Str) (endd : Option Char) :
    parse_specifier cf ev li str ('q' :: pr) endd = spec_q cf li str ('q' :: pr) endd := rfl

theorem parse_specifier_H (cf : Conf) (ev : Env) (li : LogItem) (str : Str)
    (pr : Str) (endd : Option Char) :
    parse_specifier cf ev li str ('H' :: pr) endd = spec_H li str ('H' :: pr) endd := rfl

theorem parse_specifier_r (cf : Conf) (ev : Env) (li : LogItem) (str : Str)
    (pr : Str) (endd : Option Char) :
    parse_specifier cf ev li str ('r' :: pr) endd = spec_r cf li str ('r' :: pr) endd := rfl

theorem parse_specifier_s (cf : Conf) (ev : Env) (li : LogItem) (str : Str)
    (pr : Str) (endd : Option Char) :
    parse_specifier cf ev li str ('s' :: pr) endd = spec_s cf ev li str ('s' :: pr) endd := rfl

theorem parse_specifier_b (cf : Conf) (ev : Env) (li : LogItem) (str : Str)
    (pr : Str) (endd : Option Char) :
    parse_specifier cf ev li str ('b' :: pr) endd = spec_b li str ('b' :: pr) endd := rfl

theorem parse_specifier_R (cf : Conf) (ev : Env) (li : LogItem) (str : Str)
    (pr : Str) (endd : Option Char) :
    parse_specifier cf ev li str ('R' :: pr) endd = spec_R cf ev li str ('R' :: pr) endd := rfl

theorem parse_specifier_u (cf : Conf) (ev : Env) (li : LogItem) (str : Str)
    (pr : Str) (endd : Option Char) :
    parse_specifier cf ev li str ('u' :: pr) endd = spec_u cf li str ('u' :: pr) endd := rfl

theorem parse_specifier_L (cf : Conf) (ev : Env) (li : LogItem) (str : Str)
    (pr : Str) (endd : Option Char) :
    parse_specifier cf ev li str ('L' :: pr) endd = spec_L li str ('L' :: pr) endd := rfl

theorem parse_specifier_T (cf : Conf) (ev : Env) (li : LogItem) (str : Str)
    (pr : Str) (endd : Option Char) :
    parse_specifier cf ev li str ('T' :: pr) endd = spec_T li str ('T' :: pr) endd := rfl

theorem parse_specifier_D (cf : Conf) (ev : Env) (li : LogItem) (str : Str)
    (pr : Str) (endd : Option Char) :
    parse_specifier cf ev li str ('D' :: pr) endd = spec_D li str ('D' :: pr) endd := rfl

theorem parse_specifier_n (cf : Conf) (ev : Env) (li : LogItem) (str : Str)
    (pr : Str) (endd : Option Char) :
    parse_specifier cf ev li str ('n' :: pr) endd = spec_n li str ('n' :: pr) endd := rfl

theorem parse_specifier_k (cf : Conf) (ev : Env) (li : LogItem) (str : Str)
    (pr : Str) (endd : Option Char) :
    parse_specifier cf ev li str ('k' :: pr) endd = spec_k li str ('k' :: pr) endd := rfl

theorem parse_specifier_K (cf : Conf) (ev : Env) (li : LogItem) (str : Str)
    (pr : Str) (endd : Option Char) :
    parse_specifier cf ev li str ('K' :: pr) endd = spec_K li str ('K' :: pr) endd := rfl

theorem parse_specifier_M (cf : Conf) (ev : Env) (li : LogItem) (str : Str)
    (pr : Str) (endd : Option Char) :
    parse_specifier cf ev li str ('M' :: pr) endd = spec_M li str ('M' :: pr) endd := rfl

/-- The scan of parser.c `extract_braces`: index of the last unescaped
`\x7b` seen before the first unescaped `\x7d`, and the index of that
closing brace. -/
def extract_braces_go : Str → Nat → Bool → Option Nat → Option (Nat × Nat)
  | [], _, _, _ => none
  | c :: t, i, esc, b1 =>
    if c = '\\' then extract_braces_go t (i + 1) true b1
    else if c = '{' && !esc then extract_braces_go t (i + 1) esc (some i)
    else if c = '}' && !esc then
      match b1 with
      | none => none
      | some i1 => some (i1, i)
    else extract_braces_go t (i + 1) false b1

/-- parser.c `extract_braces`: the reject set between the braces and the
format suffix after the closing brace; `none` when the braces are missing
or the set is empty. -/
def extract_braces (p : Str) : Option (Str × Str) :=
  match extract_braces_go p 0 false none with
  | none => none
  | some (i1, i2) =>
    if i2 ≤ i1 + 1 then none
    else some ((p.drop (i1 + 1)).take (i2 - i1 - 1), p.drop (i2 + 1))

/-- The candidate token of one `set_xff_host` step: `parsed_string` over
the `strcspn` span (`1 + strcspn t skips` is `strcspn (c :: t) skips` for
a head not in the reject set). -/
def xff_token (skips : Str) (c : Char) (t : Str) : Str :=
  trim_str ((c :: t).take (1 + strcspn t skips))

/-- The host assignment of one `set_xff_host` step: the token becomes the
host when there is none yet and the token is a valid IP. -/
def xff_update (ev : Env) (skips : Str) (c : Char) (t : Str)
    (li : LogItem) : LogItem :=
  if li.host = none ∧ ev.ipKind (xff_token skips c t) ≠ .inv then
    { li with host := some (xff_token skips c t),
              type_ip := ev.ipKind (xff_token skips c t) }
  else li

/-- parser.c `set_xff_host`: scan the XFF field for the client IP.  The
reject set delimits candidates; the first valid IP becomes the host; a
non-IP token after a host ends the scan; with `out` set the scan also
stops as soon as a host is known. -/
def set_xff_host_go (ev : Env) (skips : Str) (out : Bool) :
    LogItem → Str → Nat → LogItem
  | li, [], _ => li
  | li, c :: t, idx =>
    if skips.contains c then set_xff_host_go ev skips out li t (idx + 1)
    else if idx < skips.length ∧ li.host.isSome then li
    else if li.host.isSome ∧ ev.ipKind (xff_token skips c t) = .inv then li
    else if (xff_update ev skips c t li).host.isSome ∧ out then
      xff_update ev skips c t li
    else
      set_xff_host_go ev skips out (xff_update ev skips c t li)
        (t.drop (strcspn t skips)) 0
termination_by li s idx => s.length
decreasing_by
  all_goals simp [List.length_drop]
  all_goals omega

/-- parser.c `set_xff_host` (entry). -/
def set_xff_host (ev : Env) (li : LogItem) (s : Str) (skips : Str)
    (out : Bool) : LogItem :=
  set_xff_host_go ev skips out li s 0

/-- The body of `find_xff_host` after `extract_braces` succeeded.  When
the format character after the braces is a hard delimiter occurring in the
input (and not in the reject set), the surrounding token is sliced first
and XFF is parsed within it (the input then moves past the delimiter);
otherwise the whole remaining input is scanned in place. -/
def find_xff_host_core (ev : Env) (li : LogItem) (str : Str) (skips : Str)
    (pAhead : Option Char) : Int × LogItem × Str :=
  let hard :=
    match pAhead with
    | none => false
    | some c => !(skips.contains c) && str.contains c
  match pAhead with
  | some c =>
    if hard then
      match parse_string str (some c) 1 with
      | none => (0, li, str)
      | some (extract, strM) =>
        let li1 := set_xff_host ev li extract skips true
        ((if li1.host = none then 1 else 0), li1, strM.drop 1)
    else
      let li1 := set_xff_host ev li str skips false
      ((if li1.host = none then 1 else 0), li1, str)
  | none =>
    let li1 := set_xff_host ev li str skips false
    ((if li1.host = none then 1 else 0), li1, str)

/-- parser.c `find_xff_host`: returns `(ret, item, input, format)` where
`format` is the format suffix after the braces (advanced by
`extract_braces`; unchanged when the braces are missing). -/
def find_xff_host (ev : Env) (li : LogItem) (str : Str) (p : Str) :
    Int × LogItem × Str × Str :=
  match extract_braces p with
  | none => (ERR_SPEC_SFMT_MIS, { li with errstr := some (.sfmtMis 'h') }, str, p)
  | some (skips, pA) =>
    let r := find_xff_host_core ev li str skips pA.head?
    (r.1, r.2.1, r.2.2, pA)

/-- parser.c `special_specifier`: only `h` is special; any other character
after `~` does nothing. -/
def special_specifier (ev : Env) (li : LogItem) (str : Str) (pF : Str) :
    Int × LogItem × Str × Str :=
  if pF.head? = some 'h' then
    let r := find_xff_host ev li str pF
    if r.1 ≠ 0 then (ERR_SPEC_TOKN_NUL, errNul r.2.1 'h', r.2.2.1, r.2.2.2)
    else (0, r.2.1, r.2.2.1, r.2.2.2)
  else (0, li, str, pF)

theorem extract_braces_go_ne_nil {t : Str} {i : Nat} {esc : Bool}
    {b1 : Option Nat} {v : Nat × Nat}
    (h : extract_braces_go t i esc b1 = some v) : t ≠ [] := by
  intro he
  subst he
  simp [extract_braces_go] at h

theorem extract_braces_length {p sk pA : Str}
    (h : extract_braces p = some (sk, pA)) : pA.length < p.length := by
  unfold extract_braces at h
  cases hgo : extract_braces_go p 0 false none with
  | none => rw [hgo] at h; simp at h
  | some v =>
    obtain ⟨i1, i2⟩ := v
    rw [hgo] at h
    by_cases hle : i2 ≤ i1 + 1
    · simp [hle] at h
    · simp [hle] at h
      have hp : p ≠ [] := extract_braces_go_ne_nil hgo
      have hlen : 1 ≤ p.length := by
        cases p with
        | nil => exact absurd rfl hp
        | cons a t => simp
      rw [← h.2, List.length_drop]
      omega

theorem find_xff_host_fmt_le (ev : Env) (li : LogItem) (str : Str)
    (p : Str) : (find_xff_host ev li str p).2.2.2.length ≤ p.length := by
  unfold find_xff_host
  cases hb : extract_braces p with
  | none => simp
  | some v =>
    obtain ⟨skips, pA⟩ := v
    simpa using Nat.le_of_lt (extract_braces_length hb)

theorem special_specifier_fmt_le (ev : Env) (li : LogItem) (str : Str)
    (pF : Str) : (special_specifier ev li str pF).2.2.2.length ≤ pF.length := by
  unfold special_specifier
  split
  · simp only
    split
    · simpa using find_xff_host_fmt_le ev li str pF
    · simpa using find_xff_host_fmt_le ev li str pF
  · simp

/-- The loop of parser.c `parse_format` below the `%`/`~` counting: one
step per remaining format byte.  The C loop runs `p` from `lfmt` to
`last`, so the number of remaining iterations is bounded by the length of
the format suffix; `fuel` carries that bound explicitly (every branch
consumes at least one format byte, see `parse_format`, which supplies
`fmt.length`), keeping the recursion structural.  Exhausted fuel with
format left (unreachable from `parse_format`) is mapped to `none`. -/
def parse_format_aux (cf : Conf) (ev : Env) :
    Nat → LogItem → Str → Str → Nat → Nat → Option (Int × LogItem)
  | _, li, _, [], _, _ => some (0, li)
  | 0, _, _, _ :: _, _, _ => none
  | fuel + 1, li, str, p :: fr, perc, tilde =>
    if p = '%' then parse_format_aux cf ev fuel li str fr (perc + 1) tilde
    else if p = '~' ∧ perc = 0 then parse_format_aux cf ev fuel li str fr perc (tilde + 1)
    else if str = [] then some (ERR_SPEC_LINE_INV, { li with errstr := some .lineInv })
    else if str.head? = some '\n' then some (0, li)
    else if tilde ≠ 0 then
      let r := special_specifier ev li str (p :: fr)
      if r.1 = 1 then some (1, r.2.1)
      else parse_format_aux cf ev fuel r.2.1 r.2.2.1 (r.2.2.2.drop 1) perc 0
    else if perc ≠ 0 then
      match parse_specifier cf ev li str (p :: fr) (get_delim (p :: fr)) with
      | none => none
      | some (ret, li1, str1) =>
        if ret ≠ 0 then some (ret, li1)
        else parse_format_aux cf ev fuel li1 str1 fr 0 tilde
    else parse_format_aux cf ev fuel li (str.drop 1) fr perc tilde

/-- parser.c `parse_format` (the `str == NULL || *str == '\0'` guard
returns `1` with no error string). -/
def parse_format (cf : Conf) (ev : Env) (li : LogItem) (str : Str)
    (fmt : Str) : Option (Int × LogItem) :=
  if str = [] then some (1, li) else parse_format_aux cf ev fmt.length li str fmt 0 0

/-- parser.c `valid_line`: `true` (C `1`) for a null, empty, comment or
newline-first line.  A null line is modelled as `none`. -/
def valid_line (line : Option Str) : Bool :=
  match line with
  | none => true
  | some [] => true
  | some (c :: _) => c = '#' || c = '\n'

/-- parser.c `strip_qstring`: cut the request at a `?` that is not the
first character. -/
def strip_qstring (req : Str) : Str :=
  match strchrIdx req '?' with
  | some i => if i > 0 then req.take i else req
  | none => req

/-- parser.c `verify_missing_fields`: require `host`, `date` and `req`;
the first missing one stores its message.  Returns
`(errstr != NULL, item)`. -/
def verify_missing_fields (li : LogItem) : Bool × LogItem :=
  let li1 :=
    if li.host = none then { li with errstr := some .missingHost }
    else if li.date = none then { li with errstr := some .missingDate }
    else if li.req = none then { li with errstr := some .missingReq }
    else li
  (li1.errstr.isSome, li1)

/-- parser.c `handle_crawler`: `0` means the line is to be ignored. -/
def handle_crawler (cf : Conf) (ev : Env) (agent : Str) : Int :=
  if !cf.ignore_crawlers && !cf.crawlers_only then 1
  else
    let bot := ev.isCrawler agent
    if (cf.ignore_crawlers && bot) || (cf.crawlers_only && !bot) then 0 else 1

/-- parser.c `is_static`. -/
def is_static (cf : Conf) (req : Str) : Bool :=
  verify_static_content cf req

/-- parser.c `ignore_status_code`. -/
def ignore_status_code (cf : Conf) (status : Int) : Bool :=
  if status = 0 ∨ cf.ignore_status = [] then false
  else cf.ignore_status.contains status

/-- parser.c `ignore_static`. -/
def ignore_static (cf : Conf) (req : Str) : Bool :=
  cf.ignore_statics ≠ 0 && is_static cf req

/-- parser.c `is_404`. -/
def is_404 (cf : Conf) (li : LogItem) : Bool :=
  li.status = 404 || (li.status = 444 && cf.code444_as_404)

/-- parser.c `ignore_line`: the ignore policy chain; returns the ignore
level and the item (whose request may have its query string stripped when
none of the ignore rules fired). -/
def ignore_line (cf : Conf) (ev : Env) (li : LogItem) : Int × LogItem :=
  if ev.excludedIp li.host then (IGNORE_LEVEL_PANEL, li)
  else if handle_crawler cf ev (li.agent.getD []) = 0 then (IGNORE_LEVEL_PANEL, li)
  else if ev.ignoreReferer li.ref then (IGNORE_LEVEL_PANEL, li)
  else if ignore_status_code cf li.status then (IGNORE_LEVEL_PANEL, li)
  else if ignore_static cf (li.req.getD []) then (cf.ignore_statics, li)
  else if cf.ignore_qstr then
    (0, { li with req := (li.req.map strip_qstring) })
  else (0, li)

/-- parser.c `get_uniq_visitor_key`: `date|host|agent_hex`. -/
def get_uniq_visitor_key (li : LogItem) : Str :=
  li.date.getD [] ++ '|' :: li.host.getD [] ++ '|' :: li.agent_hex

/-- parser.c `is_likely_same_log`: same content when there is no saved
size, or both snippets are nonempty and agree on the shorter length. -/
def is_likely_same_log (g : GLog) (lp : GLastParse) : Bool :=
  if lp.size = 0 then true
  else
    let size := min g.snippetlen lp.snippetlen
    g.snippet.head? ≠ none && lp.snippet.head? ≠ none &&
      g.snippet.take size == lp.snippet.take size

/-- parser.c `should_restore_from_disk`: decide whether a parsed line is a
duplicate of a previously persisted run (`1`) or to be processed (`0`). -/
def should_restore_from_disk (cf : Conf) (ev : Env) (g : GLog) : Int :=
  if !cf.restore then 0
  else
    let lp := ev.lastParse g.inode
    if lp.ts = 0 then 0
    else if g.inode ≠ 0 ∧ is_likely_same_log g lp then
      if g.size > lp.size ∧ g.read ≥ lp.line then 0 else 1
    else if g.inode = 0 ∧ lp.ts ≥ g.lp.ts then 1
    else if g.lp.ts > lp.ts then 0
    else if g.size < lp.size ∧ g.lp.ts = lp.ts then 0
    else 1

/-- Modelled from the spec: `count_process` — bump the processed
counter. -/
def count_process (g : GLog) : GLog :=
  { g with processed := g.processed + 1 }

/-- Modelled from the spec: `count_process_and_invalid` — bump the
processed and invalid counters (the bounded error ring only records
message text and is not represented). -/
def count_process_and_invalid (g : GLog) : GLog :=
  { g with processed := g.processed + 1, invalid := g.invalid + 1 }

/-- parser.c `process_invalid`: count an invalid line, subject to the
resume gate. -/
def process_invalid (cf : Conf) (ev : Env) (g : GLog) (li : LogItem) : GLog :=
  if !cf.restore then count_process_and_invalid g
  else
    let lp := ev.lastParse g.inode
    if g.inode ≠ 0 ∧ is_likely_same_log g lp then
      if g.size > lp.size ∧ g.read ≥ lp.line then count_process_and_invalid g
      else g
    else if li.numdate = 0 then count_process_and_invalid g
    else
      let ts := ev.mkTime li.dt
      let g1 := { g with lp := { g.lp with ts := ts } }
      if ts = -1 then g1
      else if should_restore_from_disk cf ev g1 = 0 then
        count_process_and_invalid g1
      else g1

/-- parser.c `atomic_lpts_update`, single-thread view: `lp.ts` becomes the
maximum of its old value and `mktime(dt)`; the new timestamp is
returned. -/
def atomic_lpts_update (ev : Env) (g : GLog) (li : LogItem) : Int × GLog :=
  let newts := ev.mkTime li.dt
  (newts, { g with lp := { g.lp with ts := max g.lp.ts newts } })

/-- parser.c `init_log_item`: a zeroed item with `status = -1` and the
broken-down time seeded from the log start time. -/
def init_log_item (g : GLog) : LogItem :=
  { dt := g.start_time }

/-- parser.c `parse_line`: returns `(ret, log, emitted item)`.  `-1` is
the soft ignore for invalid lines; a nonzero return with no item is an
invalid record (counted through `process_invalid`); an item is produced
only for a fully validated, non-restored, non-ignored record.  `none`
models the `FATAL` abort path. -/
def parse_line (cf : Conf) (ev : Env) (g : GLog) (line : Option Str)
    (dry_run : Bool) : Option (Int × GLog × Option LogItem) :=
  if valid_line line then some (-1, g, none)
  else
    let li0 := init_log_item g
    let res :=
      if cf.is_json_log_format then ev.parseJson li0 (line.getD [])
      else parse_format cf ev li0 (line.getD []) cf.log_format
    match res with
    | none => none
    | some (ret, li1) =>
      if ret ≠ 0 then some (ret, process_invalid cf ev g li1, none)
      else
        let li2 :=
          if !g.piping && cf.fname_as_vhost && g.fnameAsVhost.isSome then
            { li1 with vhost := g.fnameAsVhost }
          else li1
        let vm := verify_missing_fields li2
        if vm.1 then some (1, process_invalid cf ev g vm.2, none)
        else
          let li3 := vm.2
          let au := atomic_lpts_update ev g li3
          let g1 := au.2
          if au.1 = -1 then some (0, g1, none)
          else if should_restore_from_disk cf ev g1 ≠ 0 then some (0, g1, none)
          else
            let g2 := count_process g1
            if dry_run then some (0, g2, none)
            else
              let li4 :=
                if li3.agent = none then
                  set_agent_hash { li3 with agent := some "-".toList }
                else li3
              let il := ignore_line cf ev li4
              let li5 := { il.2 with ignorelevel := il.1 }
              if li5.ignorelevel = IGNORE_LEVEL_PANEL then some (0, g2, none)
              else
                let li6 :=
                  if is_404 cf li5 then { li5 with is_404 := true }
                  else if is_static cf (li5.req.getD []) then
                    { li5 with is_static := true }
                  else li5
                let li7 := { li6 with uniq_key := some (get_uniq_visitor_key li6) }
                some (0, g2, some li7)

/-- Modelled from the spec: `uncount_processed` and `uncount_invalid` —
roll the per-log counters back for the just-tested line. -/
def uncount_both (g : GLog) : GLog :=
  { g with processed := g.processed - 1, invalid := g.invalid - 1 }

/-- parser.c `read_line`: wrap `parse_line`, clear the format-test flag on
the first valid record, bail out (returning no item) when the test budget
is exhausted without a valid record, and bump the per-log read count —
except for soft-ignored lines, which return before the count. -/
def read_line (cf : Conf) (ev : Env) (g : GLog) (line : Option Str)
    (test : Bool) (cnt : Nat) (dry_run : Bool) :
    Option (Option LogItem × GLog × Bool × Nat) :=
  match parse_line cf ev g line dry_run with
  | none => none
  | some (ret, g1, item) =>
    let test1 := if ret = 0 then false else test
    if ret = -1 then some (none, g1, test1, cnt)
    else
      let cnt1 := if cf.num_tests ≠ 0 then cnt + 1 else cnt
      if cf.num_tests ≠ 0 ∧ cnt1 ≥ cf.num_tests ∧ test1 then
        some (none, uncount_both g1, test1, cnt1)
      else some (item, { g1 with read := g1.read + 1 }, test1, cnt1)

/-- parser.c `read_lines_thread`: run `read_line` over the lines of one
chunk, collecting one `Option LogItem` slot per line. -/
def read_lines_thread (cf : Conf) (ev : Env) (dry_run : Bool) :
    GLog → Bool → Nat → List (Option Str) →
    Option (List (Option LogItem) × GLog × Bool × Nat)
  | g, test, cnt, [] => some ([], g, test, cnt)
  | g, test, cnt, l :: ls =>
    match read_line cf ev g l test cnt dry_run with
    | none => none
    | some (item, g1, t1, c1) =>
      match read_lines_thread cf ev dry_run g1 t1 c1 ls with
      | none => none
      | some (items, g2, t2, c2) => some (item :: items, g2, t2, c2)

/-- parser.c `process_lines_thread`: hand every non-null, non-errored item
of a chunk to `process_log` (in order), unless dry-running.  The returned
list is exactly the sequence of `process_log` arguments. -/
def process_lines_thread (dry_run : Bool) (items : List (Option LogItem)) :
    List LogItem :=
  items.filterMap (fun o =>
    match o with
    | some it => if !dry_run && it.errstr = none then some it else none
    | none => none)

/-! ### A concrete external environment for witnesses

The external collaborators live in other translation units; the instances
below are simple concrete stand-ins (dates in the numeric `%Y%m%d` form,
`%H:%M:%S` times, a syntactic IP check) used to evaluate the theorems on
closed inputs. -/

/-- Decimal digits of `n` (no leading zeros; `"0"` for zero). -/
def natDecAux : Nat → Nat → Str
  | 0, _ => []
  | _ + 1, 0 => []
  | fuel + 1, n => natDecAux fuel (n / 10) ++ [Char.ofNat ('0'.toNat + n % 10)]

def natDec (n : Nat) : Str :=
  if n = 0 then ['0'] else natDecAux 64 n

/-- Zero-padded decimal of width `w`. -/
def padNat (w n : Nat) : Str :=
  List.replicate (w - (natDec n).length) '0' ++ natDec n

/-- Modelled from the spec: a concrete `str_to_time` covering the numeric
date format `%Y%m%d` and the time format `%H:%M:%S` (strptime fills only
the parsed fields over the base time). -/
def strToTimeA (tkn fmt : Str) (base : Tm) : Option Tm :=
  if fmt = "%Y%m%d".toList then
    if tkn.length = 8 && tkn.all isDigitC then
      some { base with year := (digitsVal (tkn.take 4) : Int) - 1900,
                       mon := (digitsVal ((tkn.drop 4).take 2) : Int) - 1,
                       mday := (digitsVal (tkn.drop 6) : Int) }
    else none
  else if fmt = "%H:%M:%S".toList then
    match tkn with
    | [h1, h2, ':', m1, m2, ':', s1, s2] =>
      if [h1, h2, m1, m2, s1, s2].all isDigitC then
        some { base with hour := (digitsVal [h1, h2] : Int),
                         min := (digitsVal [m1, m2] : Int),
                         sec := (digitsVal [s1, s2] : Int) }
      else none
    | _ => none
  else none

/-- Modelled from the spec: `strftime` with `%Y%m%d`. -/
def fmtDateA (tm : Tm) : Option Str :=
  some (padNat 4 (tm.year + 1900).toNat ++ padNat 2 (tm.mon + 1).toNat ++
        padNat 2 tm.mday.toNat)

/-- Modelled from the spec: `strftime` with `%H:%M:%S`. -/
def fmtTimeA (tm : Tm) : Option Str :=
  some (padNat 2 tm.hour.toNat ++ ':' :: padNat 2 tm.min.toNat ++
        ':' :: padNat 2 tm.sec.toNat)

/-- Modelled from the spec: a syntactic stand-in for `invalid_ipaddr`. -/
def ipKindA (s : Str) : IpKind :=
  if s ≠ [] && s.contains ':' && s.all (fun c => isHexDigitC c || c = ':') then .v6
  else if s ≠ [] && s.contains '.' && s.all (fun c => isDigitC c || c = '.') then .v4
  else .inv

/-- Modelled from the spec: an injective-enough `mktime` stand-in (seconds
from a simple calendar; never `-1` on parsed dates). -/
def mkTimeA (tm : Tm) : Int :=
  tm.sec + 60 * (tm.min + 60 * (tm.hour + 24 * (tm.mday + 31 * (tm.mon + 12 * tm.year))))

/-- The concrete environment used for witnesses. -/
def envA : Env :=
  { strToTime := strToTimeA
    fmtDate := fmtDateA
    fmtTime := fmtTimeA
    ipKind := ipKindA
    validStatus := fun s => decide (100 ≤ s ∧ s ≤ 599)
    mkTime := mkTimeA }

/-- A baseline configuration: `%Y%m%d` dates, common log format with the
date collapsed to one numeric token. -/
def cfA : Conf :=
  { log_format := "%h %d \"%r\" %s %b".toList
    date_format := "%Y%m%d".toList
    time_format := "%H:%M:%S".toList
    date_num_format := "%Y%m%d".toList }

/-! ### Claim C2: the resume-gate decision table -/

/-- The decision table exactly as claim C2 states it: `process` without
restore or prior timestamp; the size/line rule when the snippet matches
and the log has an inode; otherwise, when the snippet does not match, the
timestamp rules.  (The claim leaves the matching-snippet/no-inode corner
unspecified; it is mapped to `drop`, and the counterexample below does not
depend on that corner.) -/
def c2_claim_table (cf : Conf) (lp : GLastParse) (g : GLog) : Int :=
  if !cf.restore then 0
  else if lp.ts = 0 then 0
  else if g.inode ≠ 0 ∧ is_likely_same_log g lp then
    if g.size > lp.size ∧ g.read ≥ lp.line then 0 else 1
  else if ¬ (is_likely_same_log g lp = true) then
    if g.lp.ts > lp.ts then 0
    else if g.size < lp.size ∧ g.lp.ts = lp.ts then 0
    else 1
  else 1

/-- The amended decision table: claim C2 plus the rule the code applies
first for a log without an inode (a pipe): a saved timestamp that is not
older than the current one means `drop`, before any of the other
timestamp rules. -/
def c2_amended_table (cf : Conf) (lp : GLastParse) (g : GLog) : Int :=
  if !cf.restore then 0
  else if lp.ts = 0 then 0
  else if g.inode ≠ 0 ∧ is_likely_same_log g lp then
    if g.size > lp.size ∧ g.read ≥ lp.line then 0 else 1
  else if g.inode = 0 ∧ lp.ts ≥ g.lp.ts then 1
  else if g.lp.ts > lp.ts then 0
  else if g.size < lp.size ∧ g.lp.ts = lp.ts then 0
  else 1

/-- A pipe log (no inode) with mismatching snippet, equal timestamps and a
current size smaller than the saved one. -/
def gC2 : GLog := { size := 3, lp := { ts := 100 } }

def lpC2 : GLastParse := { ts := 100, size := 5, snippet := ['x'], snippetlen := 1 }

def envC2 : Env := { lastParse := fun _ => lpC2 }

def cfRestore : Conf := { restore := true }

/-- C2 (counterexample): on a pipe log with mismatching snippet, equal
timestamps and current size < saved size, `should_restore_from_disk`
returns `drop` (1) although the decision table of the claim — snippet does
not match, sizes shrunk, equal timestamps — prescribes `process` (0): the
claim omits the no-inode (pipe) rule that fires first. -/
theorem c2_restore_gate_counterexample :
    should_restore_from_disk cfRestore envC2 gC2 = 1 ∧
    c2_claim_table cfRestore (envC2.lastParse gC2.inode) gC2 = 0 ∧
    is_likely_same_log gC2 (envC2.lastParse gC2.inode) = false ∧
    gC2.inode = 0 ∧ gC2.size < lpC2.size ∧ gC2.lp.ts = lpC2.ts := by
  refine ⟨by decide, by decide, by decide, by decide, by decide, by decide⟩

/-- C2 (amended): `should_restore_from_disk` implements the claimed
decision table extended with the pipe rule: no restore requested or no
prior timestamp ⇒ process; inode present and snippet matching ⇒ process
exactly when current size > saved size and current line ≥ saved line, else
drop; no inode and saved timestamp ≥ current ⇒ drop; current timestamp >
saved ⇒ process; current size < saved size with equal timestamps ⇒
process; drop in every remaining case. -/
theorem c2_restore_gate_amended (cf : Conf) (ev : Env) (g : GLog) :
    should_restore_from_disk cf ev g = c2_amended_table cf (ev.lastParse g.inode) g := by
  unfold should_restore_from_disk c2_amended_table
  rfl

/-! ### Claim C8: comment/empty lines are soft-ignored -/

/-- C8: for a null, empty, `#`-comment or newline-first line, `parse_line`
returns `-1` with the log state untouched (no counter updates) and no item
written, and `read_line` returns no item with the same log state, test
flag and test counter — in particular the per-log read count is not
incremented. -/
theorem c8_soft_ignore (cf : Conf) (ev : Env) (g : GLog) (line : Option Str)
    (test : Bool) (cnt : Nat) (dry : Bool) (h : valid_line line = true) :
    parse_line cf ev g line dry = some (-1, g, none) ∧
    read_line cf ev g line test cnt dry = some (none, g, test, cnt) := by
  constructor
  · simp [parse_line, h]
  · simp [read_line, parse_line, h]

/-- C8 (witness). -/
theorem c8_soft_ignore_witness :
    valid_line (some "#c".toList) = true ∧
    read_line cfA envA {} (some "#c".toList) true 0 false = some (none, {}, true, 0) :=
  ⟨by decide, (c8_soft_ignore cfA envA {} (some "#c".toList) true 0 false (by decide)).2⟩

/-! ### Claim C6: the cache-status directive -/

/-- The lowercase spellings of the seven cache outcomes of claim C6. -/
def cacheTokensLower : List Str :=
  ["miss", "bypass", "expired", "stale", "updating", "revalidated",
   "hit"].map String.toList

theorem ciEq_iff (m tkn : Str) :
    ciEq m tkn = true ↔ tkn.map lowerC = m.map lowerC := by
  simp only [ciEq, beq_iff_eq]
  exact eq_comm

/-- C6: with an extracted token, the `%C` directive always succeeds
(return 0); the token is retained as `cache_status` exactly when it is one
of the seven known cache outcomes, compared case-insensitively, and any
other token leaves `cache_status` null. -/
theorem c6_cache_status (cf : Conf) (ev : Env) (li : LogItem) (str : Str)
    (pr : Str) (endd : Option Char) (tkn str1 : Str)
    (hcs : li.cache_status = none)
    (hp : parse_string str endd 1 = some (tkn, str1)) :
    parse_specifier cf ev li str ('C' :: pr) endd =
      some (0, if is_cache_hit tkn then { li with cache_status := some tkn } else li,
        str1) ∧
    (is_cache_hit tkn = true ↔ tkn.map lowerC ∈ cacheTokensLower) := by
  constructor
  · rw [parse_specifier_C]
    simp only [spec_C, hcs, Option.isSome_none, Bool.false_eq_true, if_false, hp]
    split <;> simp_all
  · have e1 : "MISS".toList.map lowerC = "miss".toList := by decide
    have e2 : "BYPASS".toList.map lowerC = "bypass".toList := by decide
    have e3 : "EXPIRED".toList.map lowerC = "expired".toList := by decide
    have e4 : "STALE".toList.map lowerC = "stale".toList := by decide
    have e5 : "UPDATING".toList.map lowerC = "updating".toList := by decide
    have e6 : "REVALIDATED".toList.map lowerC = "revalidated".toList := by decide
    have e7 : "HIT".toList.map lowerC = "hit".toList := by decide
    simp only [is_cache_hit, Bool.or_eq_true, ciEq_iff, e1, e2, e3, e4, e5, e6, e7,
      cacheTokensLower, List.map_cons, List.map_nil, List.mem_cons,
      List.not_mem_nil, or_false]
    tauto

/-- C6 (witness). -/
theorem c6_cache_status_witness :
    parse_specifier cfA envA {} "miSS x".toList ('C' :: " ".toList) (some ' ') =
      some (0, { ({} : LogItem) with cache_status := some "miSS".toList },
        " x".toList) := by
  have h := (c6_cache_status cfA envA {} "miSS x".toList " ".toList (some ' ')
    "miSS".toList " x".toList rfl (by decide)).1
  rw [h]
  decide

/-! ### Claim C7: bracketed host tokens -/

/-- C7: when the `%h` input token starts with `[`, the bracket is consumed
and `]` becomes the delimiter; concretely, `[2001:db8::1]:443` yields
`host = "2001:db8::1"` (brackets and port stripped) whenever the external
IP check accepts that address. -/
theorem c7_bracketed_host (cf : Conf) (ev : Env) (li : LogItem) (pr : Str)
    (endd : Option Char) (rest : Str)
    (hh : li.host = none) (hr : rest ≠ []) :
    parse_specifier cf ev li ('[' :: rest) ('h' :: pr) endd =
      spec_h_core cf ev li rest (some ']') ∧
    (cf.no_ip_validation = false →
     ev.ipKind "2001:db8::1".toList ≠ .inv →
     parse_specifier cf ev li "[2001:db8::1]:443".toList ('h' :: pr) endd =
       some (0, { li with host := some "2001:db8::1".toList,
                          type_ip := ev.ipKind "2001:db8::1".toList },
         "]:443".toList)) := by
  constructor
  · rw [parse_specifier_h]
    simp [spec_h, hh, hr]
  · intro hv hip
    have hsplit : "[2001:db8::1]:443".toList = '[' :: "2001:db8::1]:443".toList := by
      decide
    have hne : "2001:db8::1]:443".toList ≠ [] := by decide
    have hps : parse_string "2001:db8::1]:443".toList (some ']') 1 =
        some ("2001:db8::1".toList, "]:443".toList) := by decide
    rw [hsplit, parse_specifier_h]
    simp only [spec_h, hh, Option.isSome_none, Bool.false_eq_true, if_false,
      List.head?, List.drop_one, List.tail_cons, hne, ne_eq,
      not_false_eq_true, if_true, reduceIte]
    simp only [spec_h_core, hv, Bool.not_false, if_true]
    rw [hps]
    have hip2 : ev.ipKind ['2', '0', '0', '1', ':', 'd', 'b', '8', ':', ':', '1'] ≠
        IpKind.inv := by simpa using hip
    simp [hip2]

/-- C7 (witness). -/
theorem c7_bracketed_host_witness :
    ( [] : Str) ≠ "2001:db8::1]:443".toList ∧
    parse_specifier cfA envA {} "[2001:db8::1]:443".toList ('h' :: " ".toList)
        (some ' ') =
      some (0,
        { ({} : LogItem) with
          host := some "2001:db8::1".toList
          type_ip := .v6 },
        "]:443".toList) := by
  refine ⟨by decide, ?_⟩
  have h := (c7_bracketed_host cfA envA {} " ".toList (some ' ')
    "2001:db8::1]:443".toList rfl (by decide)).2 rfl (by decide)
  rw [h]
  decide

/-! ### Claim C9: the query-string directive never raises TOKN_NUL -/

theorem spec_q_ret (cf : Conf) (li : LogItem) (str : Str)
    (p : Str) (endd : Option Char) (out : Int × LogItem × Str)
    (he : li.errstr = none)
    (h : spec_q cf li str p endd = some out) :
    out.1 ≠ ERR_SPEC_TOKN_NUL ∧ ∀ c, out.2.1.errstr ≠ some (.toknNul c) := by
  unfold spec_q at h
  split at h
  · simp only [Option.some_inj] at h
    subst h
    exact ⟨by simp [ERR_SPEC_TOKN_NUL], by simp [he]⟩
  · cases hps : parse_string str endd 1 with
    | none =>
      rw [hps] at h
      simp only [Option.some_inj] at h
      subst h
      exact ⟨by simp [ERR_SPEC_TOKN_NUL], by simp [he]⟩
    | some v =>
      obtain ⟨tkn, str1⟩ := v
      rw [hps] at h
      cases tkn with
      | nil =>
        simp only [Option.some_inj] at h
        subst h
        exact ⟨by simp [ERR_SPEC_TOKN_NUL], by simp [he]⟩
      | cons c0 t0 =>
        simp only at h
        cases hd : decode_url cf (c0 :: t0) with
        | none =>
          rw [hd] at h
          simp only [Option.some_inj] at h
          subst h
          exact ⟨by simp [ERR_SPEC_TOKN_NUL], by simp [errInv]⟩
        | some d =>
          rw [hd] at h
          simp only [Option.some_inj] at h
          subst h
          exact ⟨by simp [ERR_SPEC_TOKN_NUL], by simp [he]⟩

/-- C9: the `%q` directive never produces a `TOKN_NUL` error: a missing
token is success with the input untouched; an empty token is success with
the input advanced; and no outcome of the directive carries the
`TOKN_NUL` return code or error string. -/
theorem c9_qstr_no_tokn_nul (cf : Conf) (ev : Env) (li : LogItem) (str : Str)
    (pr : Str) (endd : Option Char)
    (hq : li.qstr = none) (he : li.errstr = none) :
    (parse_string str endd 1 = none →
      parse_specifier cf ev li str ('q' :: pr) endd = some (0, li, str)) ∧
    (∀ str1, parse_string str endd 1 = some ([], str1) →
      parse_specifier cf ev li str ('q' :: pr) endd = some (0, li, str1)) ∧
    (∀ out, parse_specifier cf ev li str ('q' :: pr) endd = some out →
      out.1 ≠ ERR_SPEC_TOKN_NUL ∧ ∀ c, out.2.1.errstr ≠ some (.toknNul c)) := by
  refine ⟨?_, ?_, ?_⟩
  · intro h
    rw [parse_specifier_q]
    simp [spec_q, hq, h]
  · intro str1 h
    rw [parse_specifier_q]
    simp [spec_q, hq, h]
  · intro out hout
    rw [parse_specifier_q] at hout
    exact spec_q_ret cf li str ('q' :: pr) endd out he hout

/-- C9 (witness). -/
theorem c9_qstr_no_tokn_nul_witness :
    parse_specifier cfA envA {} " x".toList ('q' :: " ".toList) (some ' ') =
      some (0, {}, " x".toList) := by
  have h := (c9_qstr_no_tokn_nul cfA envA {} " x".toList " ".toList (some ' ')
    rfl rfl).2.1 " x".toList (by decide)
  exact h

/-! ### Claim C10: the referer directive never raises TOKN_NUL -/

theorem spec_R_core_ret (cf : Conf) (ev : Env) (li : LogItem) (tkn : Str)
    (str1 : Str) (out : Int × LogItem × Str)
    (h : spec_R_core cf ev li tkn str1 = some out) : out.1 = 0 := by
  unfold spec_R_core at h
  split at h
  · dsimp only at h
    split at h <;>
      simp only [Option.some_inj] at h <;> subst h <;> rfl
  · simp only [Option.some_inj] at h
    subst h
    rfl

theorem spec_R_ret (cf : Conf) (ev : Env) (li : LogItem) (str : Str)
    (p : Str) (endd : Option Char) (out : Int × LogItem × Str)
    (h : spec_R cf ev li str p endd = some out) : out.1 = 0 := by
  unfold spec_R at h
  split at h
  · simp only [Option.some_inj] at h
    subst h
    rfl
  · cases hps : parse_string str endd 1 with
    | none =>
      rw [hps] at h
      exact spec_R_core_ret cf ev li "-".toList str out h
    | some v =>
      obtain ⟨t, s1⟩ := v
      rw [hps] at h
      exact spec_R_core_ret cf ev li _ s1 out h

/-- C10: the `%R` directive never produces a `TOKN_NUL` error: a missing
or empty token is substituted with the literal `"-"` as the referer and
the directive succeeds; every outcome of the directive returns 0, so a
line cannot be invalidated by an absent referer. -/
theorem c10_referer_dash (cf : Conf) (ev : Env) (li : LogItem) (str : Str)
    (pr : Str) (endd : Option Char) (hr : li.ref = none) :
    (parse_string str endd 1 = none →
      parse_specifier cf ev li str ('R' :: pr) endd =
        some (0, { li with ref := some "-".toList }, str)) ∧
    (∀ str1, parse_string str endd 1 = some ([], str1) →
      parse_specifier cf ev li str ('R' :: pr) endd =
        some (0, { li with ref := some "-".toList }, str1)) ∧
    (∀ out, parse_specifier cf ev li str ('R' :: pr) endd = some out →
      out.1 = 0) := by
  refine ⟨?_, ?_, ?_⟩
  · intro h
    rw [parse_specifier_R]
    simp [spec_R, spec_R_core, hr, h]
  · intro str1 h
    rw [parse_specifier_R]
    simp [spec_R, spec_R_core, hr, h]
  · intro out hout
    rw [parse_specifier_R] at hout
    exact spec_R_ret cf ev li str ('R' :: pr) endd out hout

/-- C10 (witness). -/
theorem c10_referer_dash_witness :
    parse_specifier cfA envA {} " x".toList ('R' :: " ".toList) (some ' ') =
      some (0, { ({} : LogItem) with ref := some "-".toList }, " x".toList) := by
  have h := (c10_referer_dash cfA envA {} " x".toList " ".toList (some ' ')
    rfl).2.1 " x".toList (by decide)
  exact h

/-! ### Claim C3: serve time is always stored in microseconds -/

theorem floor_natCast_mul (v k : Nat) :
    (Int.floor ((v : ℚ) * (k : ℚ))).toNat = v * k := by
  rw [← Nat.cast_mul, Int.floor_natCast]
  exact Int.toNat_natCast (v * k)

/-- C3: with a fresh `serve_time` and an extracted token, `%L`
(milliseconds) scales by 1000, `%T` (seconds; `strtod` when the token has
a dot, integer otherwise) scales by 1 000 000, `%D` (microseconds) stores
as-is, and `%n` (nanoseconds) divides by 1000 — so `serve_time` is always
microseconds; and once `serve_time` is nonzero, each of the four
directives leaves the item unchanged and merely advances the input.
(The detour of the C values through `double` is modelled by exact
arithmetic.) -/
theorem c3_serve_time_micro (cf : Conf) (ev : Env) (li : LogItem)
    (str : Str) (pr : Str) (endd : Option Char) (tkn str1 : Str)
    (hp : parse_string str endd 1 = some (tkn, str1)) :
    (li.serve_time = 0 →
      parse_specifier cf ev li str ('L' :: pr) endd =
        some (0,
          { li with serve_time := (if parse_u64 tkn > 0 then parse_u64 tkn * MILS else 0) },
          str1) ∧
      parse_specifier cf ev li str ('D' :: pr) endd =
        some (0, { li with serve_time := parse_u64 tkn }, str1) ∧
      parse_specifier cf ev li str ('n' :: pr) endd =
        some (0,
          { li with serve_time := (if parse_u64 tkn > 0 then parse_u64 tkn / MILS else 0) },
          str1) ∧
      (tkn.contains '.' = false →
        parse_specifier cf ev li str ('T' :: pr) endd =
          some (0,
            { li with serve_time := (if parse_u64 tkn > 0 then parse_u64 tkn * SECS else 0) },
            str1)) ∧
      (tkn.contains '.' = true →
        parse_specifier cf ev li str ('T' :: pr) endd =
          some (0,
            { li with serve_time :=
                (if strtodVal tkn > 0 then (Int.floor (strtodVal tkn * (SECS : ℚ))).toNat else 0) },
            str1))) ∧
    (li.serve_time ≠ 0 →
      ∀ c, (c = 'L' ∨ c = 'T' ∨ c = 'D' ∨ c = 'n') →
        parse_specifier cf ev li str (c :: pr) endd =
          some (0, li, handle_default_case_token str (c :: pr))) := by
  constructor
  · intro hz
    refine ⟨?_, ?_, ?_, ?_, ?_⟩
    · rw [parse_specifier_L]
      simp [spec_L, hz, hp]
    · rw [parse_specifier_D]
      simp [spec_D, hz, hp]
    · rw [parse_specifier_n]
      simp [spec_n, hz, hp]
    · intro hdot
      rw [parse_specifier_T]
      simp only [spec_T, hz, ne_eq, not_true_eq_false, Bool.false_eq_true,
        if_false, hp, hdot, reduceIte]
      by_cases hpos : 0 < parse_u64 tkn
      · have hq : (0 : ℚ) < (parse_u64 tkn : ℚ) := by exact_mod_cast hpos
        simp [hpos, hq, floor_natCast_mul]
      · have hq : ¬ (0 : ℚ) < (parse_u64 tkn : ℚ) := by exact_mod_cast hpos
        simp [hpos, hq]
    · intro hdot
      rw [parse_specifier_T]
      have hdot2 : ('.' ∈ tkn) := by simpa using hdot
      simp [spec_T, hz, hp, hdot2]
  · intro hz c hc
    rcases hc with rfl | rfl | rfl | rfl
    · rw [parse_specifier_L]; simp [spec_L, hz]
    · rw [parse_specifier_T]; simp [spec_T, hz]
    · rw [parse_specifier_D]; simp [spec_D, hz]
    · rw [parse_specifier_n]; simp [spec_n, hz]

/-- C3 (witness): `%T` on `0.250` stores 250 000 µs; `%D` on `1234`
stores 1234 µs. -/
theorem c3_serve_time_micro_witness :
    parse_specifier cfA envA {} "0.250 x".toList ('T' :: " ".toList) (some ' ') =
      some (0, { ({} : LogItem) with serve_time := 250000 }, " x".toList) ∧
    parse_specifier cfA envA {} "1234 x".toList ('D' :: " ".toList) (some ' ') =
      some (0, { ({} : LogItem) with serve_time := 1234 }, " x".toList) := by
  constructor
  · have h := ((c3_serve_time_micro cfA envA {} "0.250 x".toList " ".toList
      (some ' ') "0.250".toList " x".toList (by decide)).1 rfl).2.2.2.2 (by decide)
    rw [h]
    have hv : strtodVal "0.250".toList = 1 / 4 := by
      have ht : List.takeWhile isDigitC ['0', '.', '2', '5', '0'] = ['0'] := by decide
      have h250 : digitsVal ['2', '5', '0'] = 250 := by decide
      have h0 : digitsVal ['0'] = 0 := by decide
      have hd2 : isDigitC '2' = true := by decide
      have hd5 : isDigitC '5' = true := by decide
      have hd0 : isDigitC '0' = true := by decide
      simp only [strtodVal, strtodOk, String.toList, ht]
      norm_num [h250, h0, hd2, hd5, hd0]
    rw [hv]
    norm_num [SECS]
    rfl
  · have h := ((c3_serve_time_micro cfA envA {} "1234 x".toList " ".toList
      (some ' ') "1234".toList " x".toList (by decide)).1 rfl).2.1
    rw [h]
    decide

/-! ### Claim C4: the request-line parse -/

/-- C4: `parse_req` locates a known method prefix; with none, the whole
token (URL-decoded) becomes the request; with a method, the token after
the last space must be a valid protocol and the substring in between
(URL-decoded) becomes the request, while a missing trailing space, an
invalid trailing protocol or an empty middle yield the literal `"-"`;
and a `"-"` request passes the downstream missing-field check. -/
theorem c4_request_line (cf : Conf) (line : Str) (m0 p0 : Option Str) :
    (extract_method line = none → (parse_req cf line m0 p0).1 = decode_req cf line) ∧
    (∀ meth, extract_method line = some meth →
      (lastIdxOf (line.drop meth.length) ' ' = none →
        (parse_req cf line m0 p0).1 = "-".toList) ∧
      (∀ si, lastIdxOf (line.drop meth.length) ' ' = some si →
        (extract_protocol ((line.drop meth.length).drop (si + 1)) = none →
          (parse_req cf line m0 p0).1 = "-".toList) ∧
        (∀ proto,
          extract_protocol ((line.drop meth.length).drop (si + 1)) = some proto →
          (si = 0 → (parse_req cf line m0 p0).1 = "-".toList) ∧
          (si ≠ 0 →
            (parse_req cf line m0 p0).1 =
              decode_req cf (((line.drop meth.length).drop 1).take si))))) ∧
    (∀ li : LogItem, li.host.isSome → li.date.isSome →
      (verify_missing_fields { li with req := some "-".toList }).1 =
        li.errstr.isSome) := by
  refine ⟨?_, ?_, ?_⟩
  · intro h
    simp [parse_req, h]
  · intro meth hm
    refine ⟨?_, ?_⟩
    · intro h
      simp [parse_req, hm, h]
    · intro si hsi
      refine ⟨?_, ?_⟩
      · intro h
        simp only [parse_req, hm, hsi, h]
      · intro proto hproto
        refine ⟨?_, ?_⟩
        · intro h
          simp only [parse_req, hm, hsi, hproto, h, if_true, reduceIte]
          split <;> rfl
        · intro h
          simp only [parse_req, hm, hsi, hproto, h, if_false, reduceIte]
  · intro li hh hd
    have hh2 : li.host ≠ none := Option.ne_none_iff_isSome.mpr hh
    have hd2 : li.date ≠ none := Option.ne_none_iff_isSome.mpr hd
    simp [verify_missing_fields, hh2, hd2]

/-- C4 (witness): the spec CLF example and the malformed variants. -/
theorem c4_request_line_witness :
    (parse_req cfA "GET /x HTTP/1.0".toList none none).1 = "/x".toList ∧
    (parse_req cfA "GET HTTP/1.0".toList none none).1 = "-".toList ∧
    (parse_req cfA "GET /x".toList none none).1 = "-".toList := by
  refine ⟨?_, ?_, ?_⟩
  · have h := (((c4_request_line cfA "GET /x HTTP/1.0".toList none none).2.1
      "GET".toList (by decide)).2 3 (by decide)).2 "HTTP/1.0".toList (by decide)
    rw [h.2 (by decide)]
    decide
  · have h := (((c4_request_line cfA "GET HTTP/1.0".toList none none).2.1
      "GET".toList (by decide)).2 0 (by decide)).2 "HTTP/1.0".toList (by decide)
    exact h.1 rfl
  · have h := ((c4_request_line cfA "GET /x".toList none none).2.1
      "GET".toList (by decide)).2 0 (by decide)
    exact h.1 (by decide)

/-! ### Status-field preservation across the directive engine

Every directive except `%s` leaves `status` untouched; `%s` (in strict
mode, with a well-behaved validator) only stores validated values.  These
lemmas back the amended claim C1. -/

theorem set_agent_hash_status (li : LogItem) :
    (set_agent_hash li).status = li.status := rfl

theorem spec_d_status (cf : Conf) (ev : Env) (li : LogItem) (str p : Str)
    (endd : Option Char) (out : Int × LogItem × Str)
    (h : spec_d cf ev li str p endd = some out) :
    out.2.1.status = li.status := by
  unfold spec_d at h
  repeat' split at h
  all_goals (try dsimp only at h)
  repeat' split at h
  all_goals (try simp only [Option.some_inj] at h)
  all_goals (try subst h)
  all_goals (try rfl)
  all_goals simp_all

theorem spec_t_status (cf : Conf) (ev : Env) (li : LogItem) (str p : Str)
    (endd : Option Char) (out : Int × LogItem × Str)
    (h : spec_t cf ev li str p endd = some out) :
    out.2.1.status = li.status := by
  unfold spec_t at h
  repeat' split at h
  all_goals (try dsimp only at h)
  repeat' split at h
  all_goals (try simp only [Option.some_inj] at h)
  all_goals (try subst h)
  all_goals (try rfl)
  all_goals simp_all

theorem spec_x_status (cf : Conf) (ev : Env) (li : LogItem) (str p : Str)
    (endd : Option Char) (out : Int × LogItem × Str)
    (h : spec_x cf ev li str p endd = some out) :
    out.2.1.status = li.status := by
  unfold spec_x at h
  repeat' split at h
  all_goals (try dsimp only at h)
  repeat' split at h
  all_goals (try simp only [Option.some_inj] at h)
  all_goals (try subst h)
  all_goals (try rfl)
  all_goals simp_all

theorem spec_v_status (li : LogItem) (str p : Str) (endd : Option Char)
    (out : Int × LogItem × Str) (h : spec_v li str p endd = some out) :
    out.2.1.status = li.status := by
  unfold spec_v at h
  repeat' split at h
  all_goals (try simp only [Option.some_inj] at h)
  all_goals (try subst h)
  all_goals (try rfl)
  all_goals simp_all

theorem spec_e_status (li : LogItem) (str p : Str) (endd : Option Char)
    (out : Int × LogItem × Str) (h : spec_e li str p endd = some out) :
    out.2.1.status = li.status := by
  unfold spec_e at h
  repeat' split at h
  all_goals (try simp only [Option.some_inj] at h)
  all_goals (try subst h)
  all_goals (try rfl)
  all_goals simp_all

theorem spec_C_status (li : LogItem) (str p : Str) (endd : Option Char)
    (out : Int × LogItem × Str) (h : spec_C li str p endd = some out) :
    out.2.1.status = li.status := by
  unfold spec_C at h
  repeat' split at h
  all_goals (try simp only [Option.some_inj] at h)
  all_goals (try subst h)
  all_goals (try rfl)
  all_goals simp_all

theorem spec_h_status (cf : Conf) (ev : Env) (li : LogItem) (str p : Str)
    (endd : Option Char) (out : Int × LogItem × Str)
    (h : spec_h cf ev li str p endd = some out) :
    out.2.1.status = li.status := by
  unfold spec_h spec_h_core at h
  repeat' split at h
  all_goals (try dsimp only at h)
  repeat' split at h
  all_goals (try simp only [Option.some_inj] at h)
  all_goals (try subst h)
  all_goals (try rfl)
  all_goals simp_all

theorem spec_m_status (li : LogItem) (str p : Str) (endd : Option Char)
    (out : Int × LogItem × Str) (h : spec_m li str p endd = some out) :
    out.2.1.status = li.status := by
  unfold spec_m at h
  repeat' split at h
  all_goals (try simp only [Option.some_inj] at h)
  all_goals (try subst h)
  all_goals (try rfl)
  all_goals simp_all

theorem spec_U_status (cf : Conf) (li : LogItem) (str p : Str)
    (endd : Option Char) (out : Int × LogItem × Str)
    (h : spec_U cf li str p endd = some out) :
    out.2.1.status = li.status := by
  unfold spec_U at h
  repeat' split at h
  all_goals (try simp only [Option.some_inj] at h)
  all_goals (try subst h)
  all_goals (try rfl)
  all_goals simp_all

theorem spec_q_status (cf : Conf) (li : LogItem) (str p : Str)
    (endd : Option Char) (out : Int × LogItem × Str)
    (h : spec_q cf li str p endd = some out) :
    out.2.1.status = li.status := by
  unfold spec_q at h
  repeat' split at h
  all_goals (try simp only [Option.some_inj] at h)
  all_goals (try subst h)
  all_goals (try rfl)
  all_goals simp_all

theorem spec_H_status (li : LogItem) (str p : Str) (endd : Option Char)
    (out : Int × LogItem × Str) (h : spec_H li str p endd = some out) :
    out.2.1.status = li.status := by
  unfold spec_H at h
  repeat' split at h
  all_goals (try simp only [Option.some_inj] at h)
  all_goals (try subst h)
  all_goals (try rfl)
  all_goals simp_all

theorem spec_r_status (cf : Conf) (li : LogItem) (str p : Str)
    (endd : Option Char) (out : Int × LogItem × Str)
    (h : spec_r cf li str p endd = some out) :
    out.2.1.status = li.status := by
  unfold spec_r at h
  repeat' split at h
  all_goals (try dsimp only at h)
  repeat' split at h
  all_goals (try simp only [Option.some_inj] at h)
  all_goals (try subst h)
  all_goals (try rfl)
  all_goals simp_all

theorem spec_b_status (li : LogItem) (str p : Str) (endd : Option Char)
    (out : Int × LogItem × Str) (h : spec_b li str p endd = some out) :
    out.2.1.status = li.status := by
  unfold spec_b at h
  repeat' split at h
  all_goals (try simp only [Option.some_inj] at h)
  all_goals (try subst h)
  all_goals (try rfl)
  all_goals simp_all

theorem spec_R_core_status (cf : Conf) (ev : Env) (li : LogItem)
    (tkn str1 : Str) (out : Int × LogItem × Str)
    (h : spec_R_core cf ev li tkn str1 = some out) :
    out.2.1.status = li.status := by
  unfold spec_R_core at h
  repeat' split at h
  all_goals (try dsimp only at h)
  repeat' split at h
  all_goals (try simp only [Option.some_inj] at h)
  all_goals (try subst h)
  all_goals (try rfl)
  all_goals simp_all

theorem spec_R_status (cf : Conf) (ev : Env) (li : LogItem) (str p : Str)
    (endd : Option Char) (out : Int × LogItem × Str)
    (h : spec_R cf ev li str p endd = some out) :
    out.2.1.status = li.status := by
  unfold spec_R at h
  split at h
  · simp only [Option.some_inj] at h
    subst h
    rfl
  · cases hps : parse_string str endd 1 with
    | none =>
      rw [hps] at h
      exact spec_R_core_status cf ev li _ str out h
    | some v =>
      obtain ⟨t, s1⟩ := v
      rw [hps] at h
      exact spec_R_core_status cf ev li _ s1 out h

theorem spec_u_status (cf : Conf) (li : LogItem) (str p : Str)
    (endd : Option Char) (out : Int × LogItem × Str)
    (h : spec_u cf li str p endd = some out) :
    out.2.1.status = li.status := by
  unfold spec_u at h
  repeat' split at h
  all_goals (try simp only [Option.some_inj] at h)
  all_goals (try subst h)
  all_goals (try rfl)
  all_goals simp_all [set_agent_hash_status]

theorem spec_L_status (li : LogItem) (str p : Str) (endd : Option Char)
    (out : Int × LogItem × Str) (h : spec_L li str p endd = some out) :
    out.2.1.status = li.status := by
  unfold spec_L at h
  repeat' split at h
  all_goals (try dsimp only at h)
  repeat' split at h
  all_goals (try simp only [Option.some_inj] at h)
  all_goals (try subst h)
  all_goals (try rfl)
  all_goals simp_all

theorem spec_T_status (li : LogItem) (str p : Str) (endd : Option Char)
    (out : Int × LogItem × Str) (h : spec_T li str p endd = some out) :
    out.2.1.status = li.status := by
  unfold spec_T at h
  repeat' split at h
  all_goals (try dsimp only at h)
  repeat' split at h
  all_goals (try simp only [Option.some_inj] at h)
  all_goals (try subst h)
  all_goals (try rfl)
  all_goals simp_all

theorem spec_D_status (li : LogItem) (str p : Str) (endd : Option Char)
    (out : Int × LogItem × Str) (h : spec_D li str p endd = some out) :
    out.2.1.status = li.status := by
  unfold spec_D at h
  repeat' split at h
  all_goals (try simp only [Option.some_inj] at h)
  all_goals (try subst h)
  all_goals (try rfl)
  all_goals simp_all

theorem spec_n_status (li : LogItem) (str p : Str) (endd : Option Char)
    (out : Int × LogItem × Str) (h : spec_n li str p endd = some out) :
    out.2.1.status = li.status := by
  unfold spec_n at h
  repeat' split at h
  all_goals (try dsimp only at h)
  repeat' split at h
  all_goals (try simp only [Option.some_inj] at h)
  all_goals (try subst h)
  all_goals (try rfl)
  all_goals simp_all

theorem spec_k_status (li : LogItem) (str p : Str) (endd : Option Char)
    (out : Int × LogItem × Str) (h : spec_k li str p endd = some out) :
    out.2.1.status = li.status := by
  unfold spec_k at h
  repeat' split at h
  all_goals (try simp only [Option.some_inj] at h)
  all_goals (try subst h)
  all_goals (try rfl)
  all_goals simp_all

theorem spec_K_status (li : LogItem) (str p : Str) (endd : Option Char)
    (out : Int × LogItem × Str) (h : spec_K li str p endd = some out) :
    out.2.1.status = li.status := by
  unfold spec_K at h
  repeat' split at h
  all_goals (try simp only [Option.some_inj] at h)
  all_goals (try subst h)
  all_goals (try rfl)
  all_goals simp_all

theorem spec_M_status (li : LogItem) (str p : Str) (endd : Option Char)
    (out : Int × LogItem × Str) (h : spec_M li str p endd = some out) :
    out.2.1.status = li.status := by
  unfold spec_M at h
  repeat' split at h
  all_goals (try dsimp only at h)
  repeat' split at h
  all_goals (try simp only [Option.some_inj] at h)
  all_goals (try subst h)
  all_goals (try rfl)
  all_goals simp_all

theorem spec_s_status_strict (cf : Conf) (ev : Env) (li : LogItem)
    (str p : Str) (endd : Option Char) (out : Int × LogItem × Str)
    (hstrict : cf.no_strict_status = false)
    (hval : ∀ s, ev.validStatus s = true → -1 ≤ s)
    (hst : -1 ≤ li.status)
    (h : spec_s cf ev li str p endd = some out) (h0 : out.1 = 0) :
    -1 ≤ out.2.1.status := by
  unfold spec_s at h
  repeat' split at h
  all_goals (try dsimp only at h)
  repeat' split at h
  all_goals (try simp only [Option.some_inj] at h)
  all_goals (try subst h)
  all_goals (try simp_all [ERR_SPEC_TOKN_NUL, errNul, errInv])
  all_goals (try (exact hval _ (by simp_all)))

theorem xff_update_status (ev : Env) (skips : Str) (c : Char) (t : Str)
    (li : LogItem) : (xff_update ev skips c t li).status = li.status := by
  unfold xff_update
  split <;> rfl

theorem set_xff_host_go_status (ev : Env) (skips : Str) (out : Bool)
    (li : LogItem) (s : Str) (idx : Nat) :
    (set_xff_host_go ev skips out li s idx).status = li.status := by
  induction li, s, idx using set_xff_host_go.induct ev skips out
  all_goals simp only [set_xff_host_go]
  all_goals simp_all [xff_update_status]
  all_goals split <;> (try split) <;> (try split) <;> simp_all [xff_update_status]

theorem set_xff_host_status (ev : Env) (li : LogItem) (s skips : Str)
    (out : Bool) : (set_xff_host ev li s skips out).status = li.status :=
  set_xff_host_go_status ev skips out li s 0

theorem find_xff_host_core_status (ev : Env) (li : LogItem) (str skips : Str)
    (pAhead : Option Char) :
    (find_xff_host_core ev li str skips pAhead).2.1.status = li.status := by
  unfold find_xff_host_core
  repeat' split
  all_goals (try simp [set_xff_host_status])
  all_goals split <;> simp [set_xff_host_status]

theorem find_xff_host_status (ev : Env) (li : LogItem) (str p : Str) :
    (find_xff_host ev li str p).2.1.status = li.status := by
  unfold find_xff_host
  cases extract_braces p with
  | none => rfl
  | some v =>
    obtain ⟨skips, pA⟩ := v
    simpa using find_xff_host_core_status ev li str skips pA.head?

theorem special_specifier_status (ev : Env) (li : LogItem) (str pF : Str) :
    (special_specifier ev li str pF).2.1.status = li.status := by
  unfold special_specifier
  split
  · dsimp only
    split
    · simpa [errNul] using find_xff_host_status ev li str pF
    · simpa using find_xff_host_status ev li str pF
  · rfl

theorem parse_specifier_status (cf : Conf) (ev : Env) (li : LogItem)
    (str p : Str) (endd : Option Char) (out : Int × LogItem × Str)
    (hstrict : cf.no_strict_status = false)
    (hval : ∀ s, ev.validStatus s = true → -1 ≤ s)
    (hst : -1 ≤ li.status)
    (h : parse_specifier cf ev li str p endd = some out) (h0 : out.1 = 0) :
    -1 ≤ out.2.1.status := by
  unfold parse_specifier at h
  cases hhead : p.head? with
  | none =>
    rw [hhead] at h
    simp only [Option.some_inj] at h
    subst h
    exact hst
  | some c =>
    rw [hhead] at h
    dsimp only at h
    by_cases hc0 : c = 'd'
    · subst hc0
      rw [if_pos rfl] at h
      have hx := spec_d_status cf ev li str p endd out h
      omega
    rw [if_neg hc0] at h
    by_cases hc1 : c = 't'
    · subst hc1
      rw [if_pos rfl] at h
      have hx := spec_t_status cf ev li str p endd out h
      omega
    rw [if_neg hc1] at h
    by_cases hc2 : c = 'x'
    · subst hc2
      rw [if_pos rfl] at h
      have hx := spec_x_status cf ev li str p endd out h
      omega
    rw [if_neg hc2] at h
    by_cases hc3 : c = 'v'
    · subst hc3
      rw [if_pos rfl] at h
      have hx := spec_v_status li str p endd out h
      omega
    rw [if_neg hc3] at h
    by_cases hc4 : c = 'e'
    · subst hc4
      rw [if_pos rfl] at h
      have hx := spec_e_status li str p endd out h
      omega
    rw [if_neg hc4] at h
    by_cases hc5 : c = 'C'
    · subst hc5
      rw [if_pos rfl] at h
      have hx := spec_C_status li str p endd out h
      omega
    rw [if_neg hc5] at h
    by_cases hc6 : c = 'h'
    · subst hc6
      rw [if_pos rfl] at h
      have hx := spec_h_status cf ev li str p endd out h
      omega
    rw [if_neg hc6] at h
    by_cases hc7 : c = 'm'
    · subst hc7
      rw [if_pos rfl] at h
      have hx := spec_m_status li str p endd out h
      omega
    rw [if_neg hc7] at h
    by_cases hc8 : c = 'U'
    · subst hc8
      rw [if_pos rfl] at h
      have hx := spec_U_status cf li str p endd out h
      omega
    rw [if_neg hc8] at h
    by_cases hc9 : c = 'q'
    · subst hc9
      rw [if_pos rfl] at h
      have hx := spec_q_status cf li str p endd out h
      omega
    rw [if_neg hc9] at h
    by_cases hc10 : c = 'H'
    · subst hc10
      rw [if_pos rfl] at h
      have hx := spec_H_status li str p endd out h
      omega
    rw [if_neg hc10] at h
    by_cases hc11 : c = 'r'
    · subst hc11
      rw [if_pos rfl] at h
      have hx := spec_r_status cf li str p endd out h
      omega
    rw [if_neg hc11] at h
    by_cases hc12 : c = 's'
    · subst hc12
      rw [if_pos rfl] at h
      exact spec_s_status_strict cf ev li str p endd out hstrict hval hst h h0
    rw [if_neg hc12] at h
    by_cases hc13 : c = 'b'
    · subst hc13
      rw [if_pos rfl] at h
      have hx := spec_b_status li str p endd out h
      omega
    rw [if_neg hc13] at h
    by_cases hc14 : c = 'R'
    · subst hc14
      rw [if_pos rfl] at h
      have hx := spec_R_status cf ev li str p endd out h
      omega
    rw [if_neg hc14] at h
    by_cases hc15 : c = 'u'
    · subst hc15
      rw [if_pos rfl] at h
      have hx := spec_u_status cf li str p endd out h
      omega
    rw [if_neg hc15] at h
    by_cases hc16 : c = 'L'
    · subst hc16
      rw [if_pos rfl] at h
      have hx := spec_L_status li str p endd out h
      omega
    rw [if_neg hc16] at h
    by_cases hc17 : c = 'T'
    · subst hc17
      rw [if_pos rfl] at h
      have hx := spec_T_status li str p endd out h
      omega
    rw [if_neg hc17] at h
    by_cases hc18 : c = 'D'
    · subst hc18
      rw [if_pos rfl] at h
      have hx := spec_D_status li str p endd out h
      omega
    rw [if_neg hc18] at h
    by_cases hc19 : c = 'n'
    · subst hc19
      rw [if_pos rfl] at h
      have hx := spec_n_status li str p endd out h
      omega
    rw [if_neg hc19] at h
    by_cases hc20 : c = 'k'
    · subst hc20
      rw [if_pos rfl] at h
      have hx := spec_k_status li str p endd out h
      omega
    rw [if_neg hc20] at h
    by_cases hc21 : c = 'K'
    · subst hc21
      rw [if_pos rfl] at h
      have hx := spec_K_status li str p endd out h
      omega
    rw [if_neg hc21] at h
    by_cases hc22 : c = 'M'
    · subst hc22
      rw [if_pos rfl] at h
      have hx := spec_M_status li str p endd out h
      omega
    rw [if_neg hc22] at h
    by_cases hc23 : c = '~'
    · subst hc23
      rw [if_pos rfl] at h
      simp only [Option.some_inj] at h
      subst h
      exact hst
    rw [if_neg hc23] at h
    simp only [Option.some_inj] at h
    subst h
    exact hst

/-- Status invariant through the whole format loop: a successful
`parse_format_aux` run under strict status checking leaves the item
status at `-1` or above. -/
theorem parse_format_aux_status (cf : Conf) (ev : Env)
    (hstrict : cf.no_strict_status = false)
    (hval : ∀ s, ev.validStatus s = true → -1 ≤ s)
    (fuel : Nat) (li : LogItem) (str fmt : Str) (perc tilde : Nat) :
    ∀ out : Int × LogItem,
      parse_format_aux cf ev fuel li str fmt perc tilde = some out →
      out.1 = 0 → -1 ≤ li.status → -1 ≤ out.2.status := by
  induction fuel, li, str, fmt, perc, tilde using parse_format_aux.induct cf ev
  all_goals intro out h h0 hst
  all_goals simp only [parse_format_aux] at h
  case case1 =>
    rename_i t li str a b
    simp only [Option.some_inj] at h
    subst h
    exact hst
  case case2 =>
    exact absurd h (by simp)
  case case3 =>
    rename_i fuel li str fr perc tilde ih
    rw [if_pos trivial] at h
    exact ih out h h0 hst
  case case4 =>
    rename_i fuel li str p fr perc tilde h1 h2 ih
    rw [if_neg h1, if_pos h2] at h
    obtain ⟨hp, hq⟩ := h2
    subst hq
    exact ih out h h0 hst
  case case5 =>
    rename_i fuel li p fr perc tilde h1 h2
    rw [if_neg h1, if_neg h2, if_pos trivial] at h
    simp only [Option.some_inj] at h
    subst h
    simp [ERR_SPEC_LINE_INV] at h0
  case case6 =>
    rename_i fuel li str p fr perc tilde h1 h2 h3 h4
    rw [if_neg h1, if_neg h2, if_neg h3, if_pos h4] at h
    simp only [Option.some_inj] at h
    subst h
    exact hst
  case case7 =>
    rename_i fuel li str p fr perc tilde h1 h2 h3 h4 h5 r h6
    unfold_let r at h6
    rw [if_neg h1, if_neg h2, if_neg h3, if_neg h4, if_pos h5, if_pos h6] at h
    simp only [Option.some_inj] at h
    subst h
    simp at h0
  case case8 =>
    rename_i fuel li str p fr perc tilde h1 h2 h3 h4 h5 r h6 ih
    unfold_let r at h6 ih
    rw [if_neg h1, if_neg h2, if_neg h3, if_neg h4, if_pos h5, if_neg h6] at h
    exact ih out h h0 (by rw [special_specifier_status]; exact hst)
  case case9 =>
    rename_i fuel li str p fr perc tilde h1 h2 h3 h4 h5 h6 hps
    rw [if_neg h1, if_neg h2, if_neg h3, if_neg h4, if_neg h5, if_pos h6, hps] at h
    simp at h
  case case10 =>
    rename_i fuel li str p fr perc tilde h1 h2 h3 h4 h5 h6 ret li1 str1 hps h7
    rw [if_neg h1, if_neg h2, if_neg h3, if_neg h4, if_neg h5, if_pos h6, hps] at h
    dsimp only at h
    rw [if_pos h7] at h
    simp only [Option.some_inj] at h
    subst h
    exact absurd h0 h7
  case case11 =>
    rename_i fuel li str p fr perc tilde h1 h2 h3 h4 h5 h6 ret li1 str1 hps h7 ih
    rw [if_neg h1, if_neg h2, if_neg h3, if_neg h4, if_neg h5, if_pos h6, hps] at h
    dsimp only at h
    rw [if_neg h7] at h
    have hret : ret = 0 := by omega
    have hli1 : -1 ≤ li1.status :=
      parse_specifier_status cf ev li str (p :: fr) (get_delim (p :: fr))
        (ret, li1, str1) hstrict hval hst hps hret
    exact ih out h h0 hli1
  case case12 =>
    rename_i fuel li str p fr perc tilde h1 h2 h3 h4 h5 h6 ih
    rw [if_neg h1, if_neg h2, if_neg h3, if_neg h4, if_neg h5, if_neg h6] at h
    exact ih out h h0 hst
/-- `verify_missing_fields` succeeding (no error recorded) means the three
required fields are present, no earlier error string survives, and the
item is returned unchanged. -/
theorem verify_missing_fields_ok (li : LogItem)
    (h : (verify_missing_fields li).1 = false) :
    (verify_missing_fields li).2 = li ∧ li.host ≠ none ∧ li.date ≠ none ∧
      li.req ≠ none ∧ li.errstr = none := by
  unfold verify_missing_fields at h ⊢
  dsimp only at h ⊢
  by_cases hh : li.host = none
  · rw [if_pos hh] at h; simp at h
  · rw [if_neg hh] at h ⊢
    by_cases hd : li.date = none
    · rw [if_pos hd] at h; simp at h
    · rw [if_neg hd] at h ⊢
      by_cases hq : li.req = none
      · rw [if_pos hq] at h; simp at h
      · rw [if_neg hq] at h ⊢
        refine ⟨rfl, hh, hd, hq, ?_⟩
        simpa [Option.isSome_iff_ne_none] using h

/-- Status invariant through `parse_format`. -/
theorem parse_format_status (cf : Conf) (ev : Env)
    (hstrict : cf.no_strict_status = false)
    (hval : ∀ s, ev.validStatus s = true → -1 ≤ s)
    (li : LogItem) (str fmt : Str) (out : Int × LogItem)
    (h : parse_format cf ev li str fmt = some out) (h0 : out.1 = 0)
    (hst : -1 ≤ li.status) : -1 ≤ out.2.status := by
  unfold parse_format at h
  split at h
  · simp only [Option.some_inj] at h
    subst h
    simp at h0
  · exact parse_format_aux_status cf ev hstrict hval fmt.length li str fmt 0 0 out h h0 hst

/-- `set_agent_hash` only writes the agent hash fields. -/
theorem set_agent_hash_fields (li : LogItem) :
    (set_agent_hash li).host = li.host ∧ (set_agent_hash li).date = li.date ∧
    (set_agent_hash li).req = li.req ∧ (set_agent_hash li).errstr = li.errstr ∧
    (set_agent_hash li).status = li.status :=
  ⟨rfl, rfl, rfl, rfl, rfl⟩

/-- `ignore_line` keeps the required fields: the only item write is the
optional query-string strip, which maps the request in place. -/
theorem ignore_line_fields (cf : Conf) (ev : Env) (li : LogItem) :
    (ignore_line cf ev li).2.host = li.host ∧
    (ignore_line cf ev li).2.date = li.date ∧
    (ignore_line cf ev li).2.req.isSome = li.req.isSome ∧
    (ignore_line cf ev li).2.errstr = li.errstr ∧
    (ignore_line cf ev li).2.status = li.status := by
  unfold ignore_line
  repeat' split
  all_goals simp

set_option maxHeartbeats 2000000 in
/-- The item `parse_line` emits has the three required fields, a clear
error string, and (under strict status checking and a plain-text format)
a status at `-1` or above. -/
theorem parse_line_emitted (cf : Conf) (ev : Env)
    (hjson : cf.is_json_log_format = false)
    (hstrict : cf.no_strict_status = false)
    (hval : ∀ s, ev.validStatus s = true → -1 ≤ s)
    (g : GLog) (line : Option Str) (dry : Bool)
    (ret : Int) (g1 : GLog) (li : LogItem)
    (h : parse_line cf ev g line dry = some (ret, g1, some li)) :
    li.host ≠ none ∧ li.date ≠ none ∧ li.req ≠ none ∧
      li.errstr = none ∧ -1 ≤ li.status := by
  by_cases hv : valid_line line = true
  · unfold parse_line at h
    rw [if_pos hv] at h
    exact absurd h (by simp)
  unfold parse_line at h
  rw [if_neg hv] at h
  dsimp only at h
  rw [hjson] at h
  simp only [Bool.false_eq_true, if_false] at h
  cases hpf : parse_format cf ev (init_log_item g) (line.getD []) cf.log_format with
  | none => rw [hpf] at h; exact absurd h (by simp)
  | some r =>
  obtain ⟨ret0, li1⟩ := r
  rw [hpf] at h
  dsimp only at h
  by_cases hr0 : ret0 ≠ 0
  · rw [if_pos hr0] at h
    exact absurd h (by simp)
  rw [if_neg hr0] at h
  have hst1 : -1 ≤ li1.status :=
    parse_format_status cf ev hstrict hval (init_log_item g) (line.getD [])
      cf.log_format (ret0, li1) hpf (by simpa using hr0) (by exact le_refl _)
  have hfields :
      ∀ li2 : LogItem,
        (if (!g.piping && cf.fname_as_vhost && g.fnameAsVhost.isSome) = true
         then { li1 with vhost := g.fnameAsVhost } else li1) = li2 →
        li2.host = li1.host ∧ li2.date = li1.date ∧ li2.req = li1.req ∧
          li2.errstr = li1.errstr ∧ li2.status = li1.status := by
    intro li2 h2
    split at h2 <;> (subst h2; exact ⟨rfl, rfl, rfl, rfl, rfl⟩)
  generalize hgen : (if (!g.piping && cf.fname_as_vhost && g.fnameAsVhost.isSome) = true
      then { li1 with vhost := g.fnameAsVhost } else li1) = li2 at h
  obtain ⟨e1, e2, e3, e4, e5⟩ := hfields li2 hgen
  by_cases hvm : (verify_missing_fields li2).1 = true
  · rw [if_pos hvm] at h
    exact absurd h (by simp)
  rw [if_neg hvm] at h
  obtain ⟨hvm2, hh, hd, hq, he⟩ :=
    verify_missing_fields_ok li2 (by simpa using hvm)
  rw [hvm2] at h
  by_cases hau : (atomic_lpts_update ev g li2).1 = -1
  · rw [if_pos hau] at h
    exact absurd h (by simp)
  rw [if_neg hau] at h
  by_cases hrd : should_restore_from_disk cf ev (atomic_lpts_update ev g li2).2 ≠ 0
  · rw [if_pos hrd] at h
    exact absurd h (by simp)
  rw [if_neg hrd] at h
  by_cases hdry : dry = true
  · rw [if_pos hdry] at h
    exact absurd h (by simp)
  rw [if_neg hdry] at h
  by_cases hig : (ignore_line cf ev (if li2.agent = none then
      set_agent_hash { li2 with agent := some "-".toList } else li2)).1 =
      IGNORE_LEVEL_PANEL
  · rw [if_pos hig] at h
    exact absurd h (by simp)
  rw [if_neg hig] at h
  have f4 : (if li2.agent = none then
        set_agent_hash { li2 with agent := some "-".toList } else li2).host = li2.host ∧
      (if li2.agent = none then
        set_agent_hash { li2 with agent := some "-".toList } else li2).date = li2.date ∧
      (if li2.agent = none then
        set_agent_hash { li2 with agent := some "-".toList } else li2).req = li2.req ∧
      (if li2.agent = none then
        set_agent_hash { li2 with agent := some "-".toList } else li2).errstr = li2.errstr ∧
      (if li2.agent = none then
        set_agent_hash { li2 with agent := some "-".toList } else li2).status = li2.status := by
    split <;> exact ⟨rfl, rfl, rfl, rfl, rfl⟩
  generalize hg4 : (if li2.agent = none then
      set_agent_hash { li2 with agent := some "-".toList } else li2) = li4 at h f4
  obtain ⟨f4h, f4d, f4r, f4e, f4s⟩ := f4
  have ilf := ignore_line_fields cf ev li4
  simp only [Option.some_inj, Prod.mk.injEq] at h
  obtain ⟨hret, hg1, hli⟩ := h
  subst hli
  have hreq2 : li2.req.isSome = true := Option.ne_none_iff_isSome.mp hq
  refine ⟨?_, ?_, ?_, ?_, ?_⟩
  all_goals dsimp only
  all_goals (repeat' split)
  all_goals dsimp only
  all_goals simp only [Option.ne_none_iff_isSome, ilf.1, ilf.2.1, ilf.2.2.1,
    ilf.2.2.2.1, ilf.2.2.2.2, f4h, f4d, f4r, f4e, f4s, e5]
  all_goals first
    | exact Option.ne_none_iff_isSome.mp hh
    | exact Option.ne_none_iff_isSome.mp hd
    | exact hreq2
    | exact he
    | exact hst1

/-- An item returned by `read_line` comes unchanged from `parse_line`, so
it satisfies the same invariants. -/
theorem read_line_emitted (cf : Conf) (ev : Env)
    (hjson : cf.is_json_log_format = false)
    (hstrict : cf.no_strict_status = false)
    (hval : ∀ s, ev.validStatus s = true → -1 ≤ s)
    (g : GLog) (line : Option Str) (test : Bool) (cnt : Nat) (dry : Bool)
    (li : LogItem) (g1 : GLog) (t1 : Bool) (c1 : Nat)
    (h : read_line cf ev g line test cnt dry = some (some li, g1, t1, c1)) :
    li.host ≠ none ∧ li.date ≠ none ∧ li.req ≠ none ∧
      li.errstr = none ∧ -1 ≤ li.status := by
  unfold read_line at h
  cases hpl : parse_line cf ev g line dry with
  | none => rw [hpl] at h; exact absurd h (by simp)
  | some r =>
    obtain ⟨ret, g2, item⟩ := r
    rw [hpl] at h
    dsimp only at h
    by_cases hr : ret = -1
    · rw [if_pos hr] at h
      exact absurd h (by simp)
    rw [if_neg hr] at h
    repeat' split at h
    all_goals simp only [Option.some.injEq, Prod.mk.injEq] at h
    all_goals obtain ⟨hitem, -⟩ := h
    all_goals try exact Option.noConfusion hitem
    all_goals subst hitem
    all_goals
      exact parse_line_emitted cf ev hjson hstrict hval g line dry ret g2 li hpl

/-- Every non-null slot of a `read_lines_thread` chunk satisfies the
emitted-item invariants. -/
theorem read_lines_thread_emitted (cf : Conf) (ev : Env)
    (hjson : cf.is_json_log_format = false)
    (hstrict : cf.no_strict_status = false)
    (hval : ∀ s, ev.validStatus s = true → -1 ≤ s) (dry : Bool) :
    ∀ (lines : List (Option Str)) (g : GLog) (test : Bool) (cnt : Nat)
      (items : List (Option LogItem)) (g2 : GLog) (t2 : Bool) (c2 : Nat),
      read_lines_thread cf ev dry g test cnt lines = some (items, g2, t2, c2) →
      ∀ li : LogItem, some li ∈ items →
        li.host ≠ none ∧ li.date ≠ none ∧ li.req ≠ none ∧
          li.errstr = none ∧ -1 ≤ li.status := by
  intro lines
  induction lines with
  | nil =>
    intro g test cnt items g2 t2 c2 h li hm
    simp only [read_lines_thread, Option.some_inj, Prod.mk.injEq] at h
    obtain ⟨h1, -⟩ := h
    subst h1
    simp at hm
  | cons l ls ih =>
    intro g test cnt items g2 t2 c2 h li hm
    rw [read_lines_thread] at h
    cases hrl : read_line cf ev g l test cnt dry with
    | none => rw [hrl] at h; exact absurd h (by simp)
    | some r =>
      obtain ⟨item, g1, t1, c1⟩ := r
      rw [hrl] at h
      dsimp only at h
      cases hrest : read_lines_thread cf ev dry g1 t1 c1 ls with
      | none => rw [hrest] at h; exact absurd h (by simp)
      | some r2 =>
        obtain ⟨items1, g3, t3, c3⟩ := r2
        rw [hrest] at h
        dsimp only at h
        simp only [Option.some_inj, Prod.mk.injEq] at h
        obtain ⟨hitems, -⟩ := h
        subst hitems
        rcases List.mem_cons.mp hm with h1 | h2
        · exact read_line_emitted cf ev hjson hstrict hval g l test cnt dry
            li g1 t1 c1 (h1 ▸ hrl)
        · exact ih g1 t1 c1 items1 g3 t3 c3 hrest li h2

/-! ### Claim C1: invariants of the emitted item -/

/-- A configuration that disables strict status checking
(`--no-strict-status`). -/
def cfC1 : Conf := { cfA with no_strict_status := true }

/-- `is_valid_http_status` of the concrete environment only accepts
`100..599`, all of which are at least `-1`. -/
theorem envA_validStatus : ∀ s : Int, envA.validStatus s = true → -1 ≤ s := by
  intro s hs
  simp only [envA, decide_eq_true_eq] at hs
  omega

set_option maxRecDepth 40000 in
/-- C1, counterexample: with `no_strict_status` set, `%s` stores the raw
`strtol` value, so a line whose status token is `-5` flows through the
whole pipeline and is emitted to `process_log` with `status = -5 < -1`,
against the claimed unconditional `status ≥ -1`. -/
theorem c1_emitted_status_counterexample :
    (read_lines_thread cfC1 envA false {} false 0
        [some ("1.2.3.4 20001010 \"GET /x HTTP/1.0\" -5 100".toList)]).map
      (fun r => (process_lines_thread false r.1).map LogItem.status) =
        some [-5] ∧ ¬((-5 : Int) ≥ -1) := by
  exact ⟨by decide, by decide⟩

/-- C1 (amended): every item handed to `process_log` — i.e. every entry of
`process_lines_thread` over a chunk read by `read_lines_thread` — has
non-null `host`, `date` and `req` and a null `errstr`; and, provided
strict status checking is on (`no_strict_status` unset, the default), a
plain-text log format, and an `is_valid_http_status` that only accepts
values at least `-1`, its `status` is at least `-1`. -/
theorem c1_emitted_invariants (cf : Conf) (ev : Env)
    (hjson : cf.is_json_log_format = false)
    (hstrict : cf.no_strict_status = false)
    (hval : ∀ s, ev.validStatus s = true → -1 ≤ s)
    (dry : Bool) (g : GLog) (test : Bool) (cnt : Nat)
    (lines : List (Option Str)) (items : List (Option LogItem))
    (g2 : GLog) (t2 : Bool) (c2 : Nat)
    (h : read_lines_thread cf ev dry g test cnt lines = some (items, g2, t2, c2))
    (li : LogItem) (hm : li ∈ process_lines_thread dry items) :
    li.host ≠ none ∧ li.date ≠ none ∧ li.req ≠ none ∧
      li.errstr = none ∧ -1 ≤ li.status := by
  have hmem : some li ∈ items := by
    unfold process_lines_thread at hm
    rcases List.mem_filterMap.mp hm with ⟨o, ho, hfo⟩
    cases o with
    | none => simp at hfo
    | some it =>
      dsimp only at hfo
      split at hfo
      · simp only [Option.some.injEq] at hfo
        subst hfo
        exact ho
      · simp at hfo
  exact read_lines_thread_emitted cf ev hjson hstrict hval dry lines g test cnt
    items g2 t2 c2 h li hmem

/-- The chunk state of the concrete C1 witness run. -/
def c1run : List (Option LogItem) × GLog × Bool × Nat :=
  (read_lines_thread cfA envA false {} false 0
      [some ("1.2.3.4 20001010 \"GET /x HTTP/1.0\" 200 100".toList)]).getD
    ([], {}, false, 0)

/-- The item the concrete C1 witness run hands to `process_log`. -/
def c1item : LogItem := (process_lines_thread false c1run.1).headD {}

set_option maxRecDepth 80000 in
theorem c1_emitted_invariants_witness :
    cfA.is_json_log_format = false ∧ cfA.no_strict_status = false ∧
    read_lines_thread cfA envA false {} false 0
        [some ("1.2.3.4 20001010 \"GET /x HTTP/1.0\" 200 100".toList)] =
      some (c1run.1, c1run.2.1, c1run.2.2.1, c1run.2.2.2) ∧
    c1item ∈ process_lines_thread false c1run.1 ∧
    (c1item.host ≠ none ∧ c1item.date ≠ none ∧ c1item.req ≠ none ∧
      c1item.errstr = none ∧ -1 ≤ c1item.status) :=
  ⟨rfl, rfl, rfl, by decide,
    c1_emitted_invariants cfA envA rfl rfl envA_validStatus false {} false 0
      [some ("1.2.3.4 20001010 \"GET /x HTTP/1.0\" 200 100".toList)]
      c1run.1 c1run.2.1 c1run.2.2.1 c1run.2.2.2 rfl c1item (by decide)⟩

/-! ### Claim C5: populated fields are skipped, not re-parsed -/

/-- The directive characters of `parse_specifier` that target a `GLogItem`
field. -/
def fieldDirectives : List Char :=
  ['d', 't', 'x', 'v', 'e', 'C', 'h', 'm', 'U', 'q', 'H', 'r', 's', 'b',
   'R', 'u', 'L', 'T', 'D', 'n', 'k', 'K', 'M']

/-- The already-populated test each `parse_specifier` case performs before
parsing (`logitem->date`, …, `logitem->status >= 0`,
`logitem->resp_size`, `logitem->serve_time`). -/
def populatedField (c : Char) (li : LogItem) : Bool :=
  if c = 'd' then li.date.isSome
  else if c = 't' then li.time.isSome
  else if c = 'x' then li.time.isSome && li.date.isSome
  else if c = 'v' then li.vhost.isSome
  else if c = 'e' then li.userid.isSome
  else if c = 'C' then li.cache_status.isSome
  else if c = 'h' then li.host.isSome
  else if c = 'm' then li.method.isSome
  else if c = 'U' then li.req.isSome
  else if c = 'q' then li.qstr.isSome
  else if c = 'H' then li.protocol.isSome
  else if c = 'r' then li.req.isSome
  else if c = 's' then decide (li.status ≥ 0)
  else if c = 'b' then decide (li.resp_size ≠ 0)
  else if c = 'R' then li.ref.isSome
  else if c = 'u' then li.agent.isSome
  else if c = 'L' then decide (li.serve_time ≠ 0)
  else if c = 'T' then decide (li.serve_time ≠ 0)
  else if c = 'D' then decide (li.serve_time ≠ 0)
  else if c = 'n' then decide (li.serve_time ≠ 0)
  else if c = 'k' then li.tls_cypher.isSome
  else if c = 'K' then li.tls_type.isSome
  else if c = 'M' then li.mime_type.isSome
  else false

/-- `strchr` finds its character: dropping to the reported index puts the
character at the head. -/
theorem strchrIdx_head (c : Char) : ∀ (s : Str) (i : Nat),
    strchrIdx s c = some i → (s.drop i).head? = some c := by
  intro s
  induction s with
  | nil => intro i h; simp [strchrIdx] at h
  | cons a t ih =>
    intro i h
    rw [strchrIdx] at h
    by_cases hac : a = c
    · rw [if_pos hac] at h
      simp only [Option.some_inj] at h
      subst h
      simp [hac]
    · rw [if_neg hac] at h
      cases ht : strchrIdx t c with
      | none => rw [ht] at h; simp at h
      | some j =>
        rw [ht] at h
        simp at h
        subst h
        simpa using ih j ht

/-- C5: for every field directive whose target item field is already
populated, `parse_specifier` leaves the item untouched, returns success
and moves the input to the next occurrence of the following format byte
(for any delimiter); through the format loop — which then consumes that
byte as a literal — the input ends up just past that occurrence and
parsing continues with the rest of the format. -/
theorem c5_populated_skip (cf : Conf) (ev : Env) (li : LogItem)
    (c d : Char) (rest : Str) (str : Str) (fuel : Nat) (i : Nat)
    (hc : c ∈ fieldDirectives) (hpop : populatedField c li = true)
    (hd1 : d ≠ '%') (hd2 : d ≠ '~') (hd3 : d ≠ '\n')
    (hhead : str.head? ≠ some '\n')
    (hi : strchrIdx str d = some i) :
    (∀ endd : Option Char,
      parse_specifier cf ev li str (c :: d :: rest) endd =
        some (0, li, str.drop i)) ∧
    parse_format_aux cf ev (fuel + 3) li str ('%' :: c :: d :: rest) 0 0 =
      parse_format_aux cf ev fuel li (str.drop (i + 1)) rest 0 0 := by
  have hspec : ∀ endd : Option Char,
      parse_specifier cf ev li str (c :: d :: rest) endd =
        some (0, li, str.drop i) := by
    intro endd
    fin_cases hc
    · rw [parse_specifier_d]
      unfold spec_d
      rw [if_pos (show li.date.isSome = true from hpop)]
      simp only [handle_default_case_token]
      rw [hi]
    · rw [parse_specifier_t]
      unfold spec_t
      rw [if_pos (show li.time.isSome = true from hpop)]
      simp only [handle_default_case_token]
      rw [hi]
    · rw [parse_specifier_x]
      unfold spec_x
      rw [if_pos (show (li.time.isSome && li.date.isSome) = true from hpop)]
      simp only [handle_default_case_token]
      rw [hi]
    · rw [parse_specifier_v]
      unfold spec_v
      rw [if_pos (show li.vhost.isSome = true from hpop)]
      simp only [handle_default_case_token]
      rw [hi]
    · rw [parse_specifier_e]
      unfold spec_e
      rw [if_pos (show li.userid.isSome = true from hpop)]
      simp only [handle_default_case_token]
      rw [hi]
    · rw [parse_specifier_C]
      unfold spec_C
      rw [if_pos (show li.cache_status.isSome = true from hpop)]
      simp only [handle_default_case_token]
      rw [hi]
    · rw [parse_specifier_h]
      unfold spec_h
      rw [if_pos (show li.host.isSome = true from hpop)]
      simp only [handle_default_case_token]
      rw [hi]
    · rw [parse_specifier_m]
      unfold spec_m
      rw [if_pos (show li.method.isSome = true from hpop)]
      simp only [handle_default_case_token]
      rw [hi]
    · rw [parse_specifier_U]
      unfold spec_U
      rw [if_pos (show li.req.isSome = true from hpop)]
      simp only [handle_default_case_token]
      rw [hi]
    · rw [parse_specifier_q]
      unfold spec_q
      rw [if_pos (show li.qstr.isSome = true from hpop)]
      simp only [handle_default_case_token]
      rw [hi]
    · rw [parse_specifier_H]
      unfold spec_H
      rw [if_pos (show li.protocol.isSome = true from hpop)]
      simp only [handle_default_case_token]
      rw [hi]
    · rw [parse_specifier_r]
      unfold spec_r
      rw [if_pos (show li.req.isSome = true from hpop)]
      simp only [handle_default_case_token]
      rw [hi]
    · rw [parse_specifier_s]
      unfold spec_s
      rw [if_pos (of_decide_eq_true hpop)]
      simp only [handle_default_case_token]
      rw [hi]
    · rw [parse_specifier_b]
      unfold spec_b
      rw [if_pos (of_decide_eq_true hpop)]
      simp only [handle_default_case_token]
      rw [hi]
    · rw [parse_specifier_R]
      unfold spec_R
      rw [if_pos (show li.ref.isSome = true from hpop)]
      simp only [handle_default_case_token]
      rw [hi]
    · rw [parse_specifier_u]
      unfold spec_u
      rw [if_pos (show li.agent.isSome = true from hpop)]
      simp only [handle_default_case_token]
      rw [hi]
    · rw [parse_specifier_L]
      unfold spec_L
      rw [if_pos (of_decide_eq_true hpop)]
      simp only [handle_default_case_token]
      rw [hi]
    · rw [parse_specifier_T]
      unfold spec_T
      rw [if_pos (of_decide_eq_true hpop)]
      simp only [handle_default_case_token]
      rw [hi]
    · rw [parse_specifier_D]
      unfold spec_D
      rw [if_pos (of_decide_eq_true hpop)]
      simp only [handle_default_case_token]
      rw [hi]
    · rw [parse_specifier_n]
      unfold spec_n
      rw [if_pos (of_decide_eq_true hpop)]
      simp only [handle_default_case_token]
      rw [hi]
    · rw [parse_specifier_k]
      unfold spec_k
      rw [if_pos (show li.tls_cypher.isSome = true from hpop)]
      simp only [handle_default_case_token]
      rw [hi]
    · rw [parse_specifier_K]
      unfold spec_K
      rw [if_pos (show li.tls_type.isSome = true from hpop)]
      simp only [handle_default_case_token]
      rw [hi]
    · rw [parse_specifier_M]
      unfold spec_M
      rw [if_pos (show li.mime_type.isSome = true from hpop)]
      simp only [handle_default_case_token]
      rw [hi]
  refine ⟨hspec, ?_⟩
  have hcp : c ≠ '%' ∧ c ≠ '~' := by
    fin_cases hc <;> exact ⟨by decide, by decide⟩
  have hstr : str ≠ [] := by
    intro he
    subst he
    simp [strchrIdx] at hi
  have hdh : (str.drop i).head? = some d := strchrIdx_head d str i hi
  have hne : str.drop i ≠ [] := by
    intro he
    rw [he] at hdh
    exact absurd hdh (by simp)
  have hch : (str.drop i).head? ≠ some '\n' := by
    rw [hdh]
    simp only [ne_eq, Option.some.injEq]
    exact hd3
  rw [show parse_format_aux cf ev (fuel + 3) li str ('%' :: c :: d :: rest) 0 0 =
      parse_format_aux cf ev (fuel + 2) li str (c :: d :: rest) 1 0 by
    rw [parse_format_aux, if_pos rfl]]
  rw [parse_format_aux]
  rw [if_neg hcp.1, if_neg (by simp [hcp.2]), if_neg hstr, if_neg hhead,
      if_neg (by simp), if_pos (by simp)]
  rw [hspec (get_delim (c :: d :: rest))]
  dsimp only
  rw [if_neg (by simp)]
  rw [parse_format_aux]
  rw [if_neg hd1, if_neg (by simp [hd2]), if_neg hne, if_neg hch,
      if_neg (by simp), if_neg (by simp)]
  rw [List.drop_drop]

theorem c5_populated_skip_witness :
    ('v' ∈ fieldDirectives ∧
      populatedField 'v' ({ vhost := some ['a'] } : LogItem) = true ∧
      (' ' : Char) ≠ '%' ∧ (' ' : Char) ≠ '~' ∧ (' ' : Char) ≠ '\n' ∧
      ("x y".toList.head? ≠ some '\n') ∧
      strchrIdx "x y".toList ' ' = some 1) ∧
    ((∀ endd : Option Char,
        parse_specifier cfA envA { vhost := some ['a'] } "x y".toList
          ('v' :: ' ' :: []) endd =
          some (0, { vhost := some ['a'] }, "x y".toList.drop 1)) ∧
      parse_format_aux cfA envA (0 + 3) { vhost := some ['a'] } "x y".toList
          ('%' :: 'v' :: ' ' :: []) 0 0 =
        parse_format_aux cfA envA 0 { vhost := some ['a'] }
          ("x y".toList.drop (1 + 1)) [] 0 0) :=
  ⟨⟨by decide, by decide, by decide, by decide, by decide, by decide, by decide⟩,
    c5_populated_skip cfA envA { vhost := some ['a'] } 'v' ' ' [] "x y".toList
      0 1 (by decide) (by decide) (by decide) (by decide) (by decide)
      (by decide) (by decide)⟩

end GoAccess
